import Mathlib

/-!
Verification development for the chat-export analysis core of the repository
(src/server.jsx): the per-document metrics computation `analyzeChatLog`
(server.jsx:2-190) and the multi-document aggregation `aggregateMetrics`
(server.jsx:192-302), embedded shallowly in Lean.

The DOM produced by the external `DOMParser` browser API is modelled by the
`Message` record: one entry per `.message` element, carrying exactly the
sub-elements and attributes the source queries.  JavaScript objects used as
counters are modelled as insertion-ordered association lists (`JsObj`) with
the ECMAScript enumeration order (array-index keys first, ascending) applied
at `Object.entries` time (`jsEntries`).  `Array.prototype.sort` with the
comparator `(a, b) => b - a` is a stable sort putting larger counts first
(`sortDesc`); stability is guaranteed by ES2019.
-/

set_option maxRecDepth 16384

namespace TgStats

/-! String primitives.  JavaScript string operations are modelled over the
character list of the Lean string, with structural recursion throughout so
that every definition evaluates inside the kernel.  The code points involved
in the claims are ASCII, where UTF-16 code-unit semantics and code-point
semantics coincide. -/

/-- Value of a decimal digit list, most significant first. -/
def digitsToNat (ds : List Char) : Nat :=
  ds.foldl (fun a c => a * 10 + (c.toNat - 48)) 0

/-- Whether the first list is an initial segment of the second. -/
def leadsWith : List Char → List Char → Bool
  | [], _ => true
  | _ :: _, [] => false
  | a :: as, b :: bs => a = b && leadsWith as bs

/-- JS `String.prototype.startsWith` for the strings used here. -/
def strStartsWith (s pre : String) : Bool :=
  leadsWith pre.data s.data

/-- Membership of a character, JS `includes` with a one-character needle. -/
def strContains (s : String) (c : Char) : Bool :=
  s.data.any (fun a => a = c)

/-- Decimal reading of an all-digit, nonempty string; `none` otherwise. -/
def strToNat? (s : String) : Option Nat :=
  if s.data ≠ [] ∧ s.data.all Char.isDigit then some (digitsToNat s.data) else none

/-- Decimal digits of `n`, most significant first, driven by a fuel that the
callers choose at least as large as the digit count. -/
def natToDigitsAux : Nat → Nat → List Char
  | 0, _ => []
  | fuel + 1, n =>
    if n = 0 then []
    else natToDigitsAux fuel (n / 10) ++ [Char.ofNat (48 + n % 10)]

/-- Canonical decimal numeral of a natural number, JS `String(n)`. -/
def natToString (n : Nat) : String :=
  if n = 0 then "0" else ⟨natToDigitsAux (n + 1) n⟩

/-- Canonical decimal numeral of an integer, JS `String(i)`. -/
def intToString (i : Int) : String :=
  if i < 0 then "-" ++ natToString i.natAbs else natToString i.natAbs

/-- JS `String.prototype.trim` (ASCII-whitespace approximation). -/
def jsTrim (s : String) : String :=
  ⟨((s.data.dropWhile Char.isWhitespace).reverse.dropWhile Char.isWhitespace).reverse⟩

/-- JS `String.prototype.toLowerCase` (ASCII range). -/
def jsToLower (s : String) : String :=
  ⟨s.data.map Char.toLower⟩

/-- Split a character list at every character satisfying `p`; adjacent
matches produce empty fields, exactly like a single-character-class split. -/
def splitChars (p : Char → Bool) : List Char → List String
  | [] => [""]
  | c :: rest =>
    if p c then "" :: splitChars p rest
    else
      match splitChars p rest with
      | t :: ts => ⟨c :: t.data⟩ :: ts
      | [] => [⟨[c]⟩]

/-- Split on a nonempty separator `s0 :: srest`, left to right,
non-overlapping, JS `String.prototype.split` with a string argument.  The
fuel is structural so that the kernel can evaluate it; every step consumes at
least one character, so a fuel of the input length never runs out. -/
def splitOnAux (s0 : Char) (srest : List Char) : Nat → List Char → List String
  | _, [] => [""]
  | 0, _ :: _ => [""]
  | fuel + 1, c :: rest =>
    if leadsWith (s0 :: srest) (c :: rest) then
      "" :: splitOnAux s0 srest fuel (rest.drop srest.length)
    else
      match splitOnAux s0 srest fuel rest with
      | t :: ts => ⟨c :: t.data⟩ :: ts
      | [] => [⟨[c]⟩]

/-- JS `s.split(sep)`.  The sources only ever pass nonempty separators; the
empty-separator case (JS would split into single characters) is unused and
returns the string whole. -/
def splitOnStr (sep : String) (s : String) : List String :=
  match sep.data with
  | [] => [s]
  | c :: cs => splitOnAux c cs s.data.length s.data

/-- Lexicographic strict order on character lists (code-point order, equal to
UTF-16 code-unit order on the ASCII data involved). -/
def charListLt : List Char → List Char → Bool
  | [], [] => false
  | [], _ :: _ => true
  | _ :: _, [] => false
  | a :: as, b :: bs =>
    a.toNat < b.toNat || (a = b && charListLt as bs)

/-- String concatenation with a separator. -/
def joinWith (sep : String) : List String → String
  | [] => ""
  | [x] => x
  | x :: rest => x ++ sep ++ joinWith sep rest

/-- Truthiness filter for a JS string-or-null value (as returned by
`getAttribute`): `null`/absent and the empty string are falsy, so
`if (s) ...` runs only for a nonempty string. -/
def truthy : Option String → Option String
  | none => none
  | some s => if s = "" then none else some s

/-- The `.date.details` sub-element of a message: its `title` attribute
(machine-readable `DD.MM.YYYY HH:mm:ss UTC±hh:mm` timestamp, `none` when the
attribute is absent) and its displayed text content (the short time shown). -/
structure DateElem where
  title : Option String
  text : String

/-- One `.message` element of a parsed export document, carrying exactly the
pieces `analyzeChatLog` queries from the DOM:
`isDefault`/`isService` are the class-list tests (server.jsx:15-16);
`fromName` is the text content of the `.from_name` element when present
(server.jsx:25); `dateElem` is the `.date.details` element when present
(server.jsx:26, 68); `bodyDetailsText` is the text content of the
`.body.details` element when present (server.jsx:99); `text` is the text
content of the `.text` element when present (server.jsx:115); `reactions` is
the number of `.reaction` elements (server.jsx:33); `links` lists the `href`
attribute of each `a` element inside the message, `none` for an `a` with no
`href` (server.jsx:139-141); `replyOnclick` is the `onclick` attribute of the
first `a` inside a `.reply_to` element, `none` when the `.reply_to` element,
the `a`, or the attribute is missing (the optional chain at server.jsx:154). -/
structure Message where
  isDefault : Bool
  isService : Bool
  fromName : Option String
  dateElem : Option DateElem
  bodyDetailsText : Option String
  text : Option String
  reactions : Nat
  links : List (Option String)
  replyOnclick : Option String

/-- A JavaScript object used as a counter: an insertion-ordered association
list from string property keys to counts.  Updating an existing key keeps its
position; a new key is appended.  Enumeration reordering of array-index keys
happens only at `Object.entries` time, see `jsEntries`. -/
abbrev JsObj := List (String × Nat)

/-- Property read with default: `obj[k] || 0`. -/
def jsGet : JsObj → String → Nat
  | [], _ => 0
  | p :: rest, k => if p.1 = k then p.2 else jsGet rest k

/-- The JS statement `obj[k] = (obj[k] || 0) + v`: update the existing entry
in place, or append a new one. -/
def jsIncr : JsObj → String → Nat → JsObj
  | [], k, v => [(k, v)]
  | p :: rest, k, v => if p.1 = k then (p.1, p.2 + v) :: rest else p :: jsIncr rest k v

/-- The property keys of a counter object, in insertion order
(`Object.keys` up to the array-index reordering, which never changes the
number of keys). -/
def jsKeys (m : JsObj) : List String := m.map Prod.fst

/-- Adding one element to a JS `Set`: insertion-ordered, re-adding an element
keeps its original position. -/
def setAdd (l : List String) (s : String) : List String :=
  if s ∈ l then l else l ++ [s]

/-- Adding a whole list of elements to a JS `Set`, in order (a `forEach` of
`Set.add` calls). -/
def addAll (s : List String) (l : List String) : List String :=
  l.foldl setAdd s

/-- Reference first-seen deduplication of a stream: the head is kept and
every LATER copy of it is removed from the deduplication of the tail, so
each element survives exactly at its first occurrence and the survivors
appear in stream order.  Filling a JS `Set` from the stream produces exactly
this list. -/
def dedupFirstSeen : List String → List String
  | [] => []
  | x :: rest => x :: (dedupFirstSeen rest).filter (fun y => y ≠ x)

/-- Total value carried by the key `k` in a list of entries (an entry list may
mention a key several times; a well-formed counter mentions it once). -/
def sumVals : List (String × Nat) → String → Nat
  | [], _ => 0
  | p :: rest, k => (if p.1 = k then p.2 else 0) + sumVals rest k

/-- A `forEach` over `(key, value)` entries that increments each entry into a
counter object, as in the merge loops of `aggregateMetrics`
(server.jsx:222-259). -/
def foldIncr (acc : JsObj) (l : List (String × Nat)) : JsObj :=
  l.foldl (fun m p => jsIncr m p.1 p.2) acc

/-- Merging several entry lists into one counter object, first list first. -/
def mergeEntryLists (ls : List (List (String × Nat))) : JsObj :=
  ls.foldl foldIncr []

/-- A counting loop: for each element of `l`, increment every `(key, value)`
pair selected by `f` into one accumulator object, starting empty. -/
def countAll (l : List α) (f : α → List (String × Nat)) : JsObj :=
  mergeEntryLists (l.map f)

/-- Whether a string is an ECMAScript array-index property key: the canonical
decimal representation of an integer below `2^32 - 1`.  Object property
enumeration lists such keys first, in ascending numeric order, before the
remaining string keys in insertion order. -/
def isArrayIndex (s : String) : Bool :=
  match strToNat? s with
  | some n => decide (n < 4294967295) && decide (natToString n = s)
  | none => false

/-- Numeric value of an entry key, for ordering array-index keys. -/
def keyNum (p : String × Nat) : Nat := (strToNat? p.1).getD 0

/-- Stable ascending insertion by numeric key value: the element goes in
front of the first strictly greater key.  Array-index keys of one object are
distinct, so this is their unique ascending enumeration. -/
def insertIdx (x : String × Nat) : List (String × Nat) → List (String × Nat)
  | [] => [x]
  | y :: rest =>
    if keyNum x < keyNum y then x :: y :: rest else y :: insertIdx x rest

/-- Sort of the array-index entries, ascending by numeric key. -/
def sortIdx : List (String × Nat) → List (String × Nat)
  | [] => []
  | x :: rest => insertIdx x (sortIdx rest)

/-- `Object.entries` enumeration order: array-index keys in ascending numeric
order first, then all other keys in insertion order. -/
def jsEntries (m : JsObj) : List (String × Nat) :=
  sortIdx (m.filter (fun p => isArrayIndex p.1))
    ++ m.filter (fun p => !isArrayIndex p.1)

/-- One step of the stable descending sort: the element goes in front of the
first element whose count does not exceed its own, so it stays behind
strictly larger counts and ahead of later ties. -/
def insertDesc (x : String × Nat) : List (String × Nat) → List (String × Nat)
  | [] => [x]
  | y :: rest =>
    if y.2 ≤ x.2 then x :: y :: rest else y :: insertDesc x rest

/-- `Array.prototype.sort` with the comparator `([,a],[,b]) => b - a`: larger
counts first, ties in input order.  Sort stability is guaranteed since
ES2019, and a stable sort for a total preorder is unique as a function, so
this stable insertion sort computes exactly the engine's result. -/
def sortDesc : List (String × Nat) → List (String × Nat)
  | [] => []
  | x :: rest => insertDesc x (sortDesc rest)

/-- One step of the lexicographic string sort. -/
def insertLex (x : String) : List String → List String
  | [] => [x]
  | y :: rest =>
    if charListLt x.data y.data then x :: y :: rest else y :: insertLex x rest

/-- Default string sort, `Array.prototype.sort()` with no comparator
(UTF-16 code-unit order, equal to code-point order on the ASCII data here;
the inputs are deduplicated sets, so ties do not arise). -/
def sortLex : List String → List String
  | [] => []
  | x :: rest => insertLex x (sortLex rest)

/-- Value of a hexadecimal digit. -/
def hexDigitVal (c : Char) : Nat :=
  if c.isDigit then c.toNat - 48
  else if 97 ≤ c.toNat ∧ c.toNat ≤ 102 then c.toNat - 87
  else c.toNat - 55

/-- Whether a character is a hexadecimal digit. -/
def isHexDigit (c : Char) : Bool :=
  c.isDigit || (97 ≤ c.toNat && c.toNat ≤ 102) || (65 ≤ c.toNat && c.toNat ≤ 70)

/-- JS `parseInt` with no radix argument: skip leading whitespace, an optional
sign, then either a `0x`/`0X` prefix followed by hexadecimal digits or the
longest run of decimal digits; `NaN` (here `none`) when that run is empty.
Exact integer arithmetic is used; the double rounding JS applies beyond
`2^53` cannot occur for the inputs of interest. -/
def jsParseInt (s : String) : Option Int :=
  let cs := s.data.dropWhile Char.isWhitespace
  let signAndRest : Int × List Char :=
    match cs with
    | '-' :: rest => (-1, rest)
    | '+' :: rest => (1, rest)
    | _ => (1, cs)
  let sign := signAndRest.1
  let body := signAndRest.2
  match body with
  | '0' :: x :: rest =>
    if x = 'x' ∨ x = 'X' then
      let hs := rest.takeWhile isHexDigit
      if hs.isEmpty then none
      else some (sign * (hs.foldl (fun a c => a * 16 + hexDigitVal c) 0 : Nat))
    else
      let ds := body.takeWhile Char.isDigit
      if ds.isEmpty then none else some (sign * digitsToNat ds)
  | _ =>
    let ds := body.takeWhile Char.isDigit
    if ds.isEmpty then none else some (sign * digitsToNat ds)

/-- A JS `Date` value, reduced to what the source observes: a calendar date,
or the Invalid Date produced by an unparseable string. -/
inductive JsDate where
  | valid (y m d : Nat)
  | invalid
deriving DecidableEq

/-- Gregorian leap-year rule. -/
def isLeapYear (y : Nat) : Bool :=
  (y % 4 = 0 && y % 100 ≠ 0) || y % 400 = 0

/-- Number of days in a month. -/
def monthLength (y m : Nat) : Nat :=
  if m = 2 then (if isLeapYear y then 29 else 28)
  else if m = 4 ∨ m = 6 ∨ m = 9 ∨ m = 11 then 30
  else 31

/-- Whether a string is nonempty and all decimal digits. -/
def allDigits (s : String) : Bool :=
  decide (s.length > 0) && s.data.all Char.isDigit

/-- The `Date` produced by `new Date` on the template string
`year-month-day` rebuilt at server.jsx:7 from a `DD.MM.YYYY` prefix.  The
ECMAScript date-time string format requires a zero-padded `YYYY-MM-DD` with an
in-range calendar date; any other string (including destructuring gaps that
interpolate as the text `undefined`) yields an Invalid Date.  Engine-specific
fallback parsing of non-ISO strings is modelled as invalid, which agrees with
the padded values the Telegram export format supplies. -/
def jsDateOfYMD (ys ms ds : String) : JsDate :=
  if ys.length = 4 ∧ allDigits ys ∧ ms.length = 2 ∧ allDigits ms
      ∧ ds.length = 2 ∧ allDigits ds then
    let y := (strToNat? ys).getD 0
    let m := (strToNat? ms).getD 0
    let d := (strToNat? ds).getD 0
    if 1 ≤ m ∧ m ≤ 12 ∧ 1 ≤ d ∧ d ≤ monthLength y m then .valid y m d
    else .invalid
  else .invalid

/-- `parseDate` (server.jsx:3-8): take the part of the timestamp before the
first space, split it on dots into `[day, month, year]` (extra parts are
ignored, missing parts destructure to `undefined`), and build a `Date` from
the re-assembled `year-month-day` string.  It never throws; a bad string
produces an Invalid Date. -/
def parseDate (dateStr : String) : JsDate :=
  match splitOnStr "." ((splitOnStr " " dateStr).headD "") with
  | ds :: ms :: ys :: _ => jsDateOfYMD ys ms ds
  | _ => .invalid

/-- Zero-padded two-digit numeral. -/
def pad2 (n : Nat) : String :=
  if n < 10 then "0" ++ natToString n else natToString n

/-- Zero-padded four-digit numeral (years of interest are below 10000). -/
def pad4 (n : Nat) : String :=
  if n < 10 then "000" ++ natToString n
  else if n < 100 then "00" ++ natToString n
  else if n < 1000 then "0" ++ natToString n
  else natToString n

/-- `date.toISOString().split('T')[0]`: the `YYYY-MM-DD` date part for a valid
date; `toISOString` throws a `RangeError` on an Invalid Date (`none`). -/
def toISODatePart : JsDate → Option String
  | .valid y m d => some (pad4 y ++ "-" ++ pad2 m ++ "-" ++ pad2 d)
  | .invalid => none

/-- Days in the years `1 .. y-1` of the proleptic Gregorian calendar. -/
def daysBeforeYear (y : Nat) : Nat :=
  let yy := y - 1
  yy * 365 + yy / 4 - yy / 100 + yy / 400

/-- Days in the months `1 .. m-1` of year `y`. -/
def daysBeforeMonth (y m : Nat) : Nat :=
  (List.range (m - 1)).foldl (fun a i => a + monthLength y (i + 1)) 0

/-- Day index of a calendar date, with 0001-01-01 (a Monday) as day 0. -/
def dayNumber (y m d : Nat) : Nat :=
  daysBeforeYear y + daysBeforeMonth y m + (d - 1)

/-- Weekday names produced by the `en-US` locale, indexed from Monday. -/
def weekdayNames : List String :=
  ["Monday", "Tuesday", "Wednesday", "Thursday", "Friday", "Saturday", "Sunday"]

/-- `date.toLocaleDateString('en-US', { weekday: 'long' })`, with the
environment timezone fixed at UTC (the method formats in the local zone, an
environment dependence outside this embedding).  On an Invalid Date it does
not throw: it returns the literal string "Invalid Date". -/
def weekdayName : JsDate → String
  | .valid y m d => weekdayNames.getD (dayNumber y m d % 7) ""
  | .invalid => "Invalid Date"

/-- Substring test, JS `String.prototype.includes` for a nonempty needle. -/
def containsSub (s sub : String) : Bool :=
  decide ((splitOnStr sub s).length ≥ 2)

/-- JS `\w` word character: ASCII letter, digit, or underscore. -/
def isWordChar (c : Char) : Bool :=
  c.isAlphanum || c = '_'

/-- Scanner core for the regex `@[\w]+`: left to right, greedy,
non-overlapping.  Structural fuel, at least one character consumed per
step. -/
def mentionScanAux : Nat → List Char → List String
  | _, [] => []
  | 0, _ :: _ => []
  | fuel + 1, c :: rest =>
    if c = '@' then
      let run := rest.takeWhile isWordChar
      if run.isEmpty then mentionScanAux fuel rest
      else (⟨'@' :: run⟩ : String) :: mentionScanAux fuel (rest.drop run.length)
    else mentionScanAux fuel rest

/-- All matches of the regex `@[\w]+` with the `g` flag (server.jsx:131). -/
def mentionScan (cs : List Char) : List String :=
  mentionScanAux cs.length cs

/-- First run of decimal digits in a string: `s.match(/\d+/)?.[0]`
(server.jsx:154).  A successful match is a nonempty digit string, hence
truthy. -/
def firstDigitRun (s : String) : Option String :=
  match (s.data.dropWhile (fun c => !c.isDigit)).takeWhile Char.isDigit with
  | [] => none
  | ds => some ⟨ds⟩

/-- The `.default`-classed messages (server.jsx:15). -/
def userMessagesOf (msgs : List Message) : List Message :=
  msgs.filter (·.isDefault)

/-- Trimmed sender name of a message whose `.from_name` element is present
(server.jsx:28-29).  The source does not test the trimmed name for emptiness:
a whitespace-only name yields the empty-string key. -/
def nameOf (msg : Message) : Option String :=
  msg.fromName.map jsTrim

/-- `userCounts` (server.jsx:19, 30): messages per sender name, over user
messages that have a `.from_name` element. -/
def userCountsOf (msgs : List Message) : JsObj :=
  countAll (userMessagesOf msgs) (fun msg =>
    match nameOf msg with
    | some name => [(name, 1)]
    | none => [])

/-- `reactionCounts` (server.jsx:20, 33-36): reactions received per sender
name; a message contributes only when it has at least one `.reaction`
element. -/
def reactionCountsOf (msgs : List Message) : JsObj :=
  countAll (userMessagesOf msgs) (fun msg =>
    match nameOf msg with
    | some name => if msg.reactions > 0 then [(name, msg.reactions)] else []
    | none => [])

/-- The type tags a sender name earns (server.jsx:56-58): independent
case-sensitive substring checks, in source order. -/
def userTypeTags (name : String) : List String :=
  (if strContains name '|' then ["Team Member"] else []) ++
  (if containsSub name "admin" then ["Admin"] else []) ++
  (if containsSub name "mod" then ["Moderator"] else [])

/-- `userTypes` (server.jsx:22, 56-58): the tag set in first-earned order. -/
def userTypesOf (msgs : List Message) : List String :=
  (userMessagesOf msgs).foldl (fun s msg =>
    match nameOf msg with
    | some name => addAll s (userTypeTags name)
    | none => s) []

/-- The nested update `userMessagesByDate[name][dateStr] += 1`, creating the
inner object on first use (server.jsx:45-48). -/
def nestedIncr (m : List (String × JsObj)) (k1 k2 : String) : List (String × JsObj) :=
  if m.any (fun p => p.1 = k1) then
    m.map (fun p => if p.1 = k1 then (p.1, jsIncr p.2 k2 1) else p)
  else m ++ [(k1, jsIncr [] k2 1)]

/-- ISO date key of a message: requires the `.date.details` element, a truthy
`title` attribute, and a `toISOString` that does not throw. -/
def dateKey (msg : Message) : Option String :=
  match msg.dateElem with
  | none => none
  | some de =>
    match truthy de.title with
    | none => none
    | some fullDate => toISODatePart (parseDate fullDate)

/-- `userMessagesByDate` (server.jsx:21, 39-53): sender name, then ISO date,
to count; only for named user messages whose date parses. -/
def userMessagesByDateOf (msgs : List Message) : List (String × JsObj) :=
  (userMessagesOf msgs).foldl (fun m msg =>
    match nameOf msg, dateKey msg with
    | some name, some dateStr => nestedIncr m name dateStr
    | _, _ => m) []

/-- Hour bucket key of a message (server.jsx:73-80): requires the
`.date.details` element with a truthy `title` attribute; the hour is
`parseInt` of the displayed text's leading token before the first colon,
skipped when there is no colon or `parseInt` yields `NaN`.  The source checks
only for `NaN` — there is no 0-23 range check — and the increment runs before
the date parse of the same `try` block, so it does not depend on the `title`
value parsing. -/
def hourKey (msg : Message) : Option String :=
  match msg.dateElem with
  | none => none
  | some de =>
    match truthy de.title with
    | none => none
    | some _ =>
      let timeText := jsTrim de.text
      if strContains timeText ':' then
        match jsParseInt ((splitOnStr ":" timeText).headD "") with
        | some h => some (intToString h)
        | none => none
      else none

/-- Weekday bucket key of a message (server.jsx:83-85): `toLocaleDateString`
does not throw, so any message with a truthy `title` contributes — an
unparseable timestamp contributes the literal "Invalid Date" key, after which
`toISOString` throws and only the date bucket is skipped. -/
def dowKey (msg : Message) : Option String :=
  match msg.dateElem with
  | none => none
  | some de =>
    match truthy de.title with
    | none => none
    | some fullDate => some (weekdayName (parseDate fullDate))

/-- `hourCounts` (server.jsx:63, 73-80), over all messages. -/
def hourCountsOf (msgs : List Message) : JsObj :=
  countAll msgs (fun msg =>
    match hourKey msg with
    | some k => [(k, 1)]
    | none => [])

/-- `dayOfWeekCounts` (server.jsx:64, 83-85), over all messages. -/
def dayOfWeekCountsOf (msgs : List Message) : JsObj :=
  countAll msgs (fun msg =>
    match dowKey msg with
    | some k => [(k, 1)]
    | none => [])

/-- `messagesByDate` (server.jsx:65, 87-88), over all messages. -/
def messagesByDateOf (msgs : List Message) : JsObj :=
  countAll msgs (fun msg =>
    match dateKey msg with
    | some k => [(k, 1)]
    | none => [])

/-- The `dates` set (server.jsx:97-106): text of a `.body.details` element
that contains the literal "2024" and, after trimming, no colon. -/
def datesCoveredSetOf (msgs : List Message) : List String :=
  msgs.foldl (fun s msg =>
    match msg.bodyDetailsText with
    | some t =>
      if containsSub t "2024" then
        let dateText := jsTrim t
        if strContains dateText ':' then s else setAdd s dateText
      else s
    | none => s) []

/-- Trimmed body text of a user message that has a `.text` element
(server.jsx:115-117). -/
def bodyTextOf (msg : Message) : Option String :=
  msg.text.map jsTrim

/-- `messageLengths` (server.jsx:109, 120): lengths of the trimmed body texts,
in message order. -/
def messageLengthsOf (msgs : List Message) : List Nat :=
  (userMessagesOf msgs).foldl (fun acc msg =>
    match bodyTextOf msg with
    | some t => acc ++ [t.length]
    | none => acc) []

/-- Lowercased whitespace-split tokens of length greater than 3
(server.jsx:123-125).  JS splits on runs of whitespace; the difference with a
per-character split is only extra empty tokens, which the length filter
removes. -/
def wordsOf (t : String) : List String :=
  (splitChars Char.isWhitespace (jsToLower t).data).filter (fun w => w.length > 3)

/-- `wordFrequency` (server.jsx:110, 123-128). -/
def wordFrequencyOf (msgs : List Message) : JsObj :=
  countAll (userMessagesOf msgs) (fun msg =>
    match bodyTextOf msg with
    | some t => (wordsOf t).map (fun w => (w, 1))
    | none => [])

/-- `mentions` (server.jsx:111, 131-136). -/
def mentionsOf (msgs : List Message) : JsObj :=
  countAll (userMessagesOf msgs) (fun msg =>
    match bodyTextOf msg with
    | some t => (mentionScan t.data).map (fun w => (w, 1))
    | none => [])

/-- Link targets a user message contributes (server.jsx:114-145): the whole
link loop sits inside the `if (textElem)` guard, so a message without a
`.text` element contributes nothing; an `href` must be truthy and must not
start with `@`. -/
def linkTargetsOf (msg : Message) : List String :=
  match msg.text with
  | none => []
  | some _ =>
    msg.links.filterMap (fun h =>
      match truthy h with
      | some href => if strStartsWith href "@" then none else some href
      | none => none)

/-- The `links` set (server.jsx:112, 139-145), in first-seen order. -/
def linksOf (msgs : List Message) : List String :=
  (userMessagesOf msgs).foldl (fun s msg => addAll s (linkTargetsOf msg)) []

/-- `replyChains` (server.jsx:150-159): counts per reply-target id, the first
digit run of the reply link's `onclick` attribute. -/
def replyChainsOf (msgs : List Message) : JsObj :=
  countAll (userMessagesOf msgs) (fun msg =>
    match msg.replyOnclick with
    | some oc =>
      match firstDigitRun oc with
      | some rid => [(rid, 1)]
      | none => []
    | none => [])

/-- `Math.round(sum / len)` over an integer sample (server.jsx:161-163,
269-271), as exact rational rounding: JS `Math.round` rounds half toward
positive infinity, which for a nonnegative rational `s/n` is
`(2*s + n) / (2*n)` in integer division.  Double-precision error cannot
change the result for totals far below `2^52`.  An empty sample yields 0. -/
def jsRoundAvg (samples : List Nat) : Nat :=
  if samples.length = 0 then 0
  else (2 * samples.sum + samples.length) / (2 * samples.length)

/-- The object literal returned by `analyzeChatLog` (server.jsx:165-189). -/
structure PerDocMetrics where
  totalMessages : Nat
  userMessages : Nat
  serviceMessages : Nat
  uniqueUsers : Nat
  messagesByUser : JsObj
  messagesByHour : JsObj
  messagesByDayOfWeek : JsObj
  messagesByDate : JsObj
  userMessagesByDate : List (String × JsObj)
  reactionsByUser : JsObj
  datesCovered : List String
  averageMessageLength : Nat
  messageLengthDistribution : List Nat
  topWords : List (String × Nat)
  topMentions : List (String × Nat)
  uniqueLinks : List String
  userTypes : List String
  longestThreads : List (String × Nat)
deriving DecidableEq

/-- `analyzeChatLog` (server.jsx:2-190), on the message records of one parsed
document.  The source's `forEach` loops each update several accumulators, but
every update depends only on the current message and the accumulator it
writes, so each output field is embedded as its own fold over the same
message list, in the same order. -/
def analyzeChatLog (msgs : List Message) : PerDocMetrics where
  totalMessages := msgs.length
  userMessages := (userMessagesOf msgs).length
  serviceMessages := (msgs.filter (·.isService)).length
  uniqueUsers := (userCountsOf msgs).length
  messagesByUser := userCountsOf msgs
  messagesByHour := hourCountsOf msgs
  messagesByDayOfWeek := dayOfWeekCountsOf msgs
  messagesByDate := messagesByDateOf msgs
  userMessagesByDate := userMessagesByDateOf msgs
  reactionsByUser := reactionCountsOf msgs
  datesCovered := sortLex (datesCoveredSetOf msgs)
  averageMessageLength := jsRoundAvg (messageLengthsOf msgs)
  messageLengthDistribution := messageLengthsOf msgs
  topWords := (sortDesc (jsEntries (wordFrequencyOf msgs))).take 50
  topMentions := sortDesc (jsEntries (mentionsOf msgs))
  uniqueLinks := linksOf msgs
  userTypes := userTypesOf msgs
  longestThreads := (sortDesc (jsEntries (replyChainsOf msgs))).take 10

/-- One raw document of a batch, after the external `DOMParser` and the
per-document processing attempt: `ok` with the extracted message records, or
`error` for a document whose processing threw — the `catch` at
server.jsx:264-266 logs and skips exactly such a document. -/
abbrev DocResult := Except Unit (List Message)

/-- The message lists of the successfully processed documents, in batch
order. -/
def okDocs (docs : List DocResult) : List (List Message) :=
  docs.filterMap (fun r =>
    match r with
    | .ok msgs => some msgs
    | .error _ => none)

/-- The per-document metrics of the successfully processed documents, in
batch order (the loop body at server.jsx:212-263 runs once per surviving
document). -/
def okMetrics (docs : List DocResult) : List PerDocMetrics :=
  (okDocs docs).map analyzeChatLog

/-- The object literal returned by `aggregateMetrics` (server.jsx:273-301). -/
structure AggregatedMetrics where
  totalMessages : Nat
  userMessages : Nat
  serviceMessages : Nat
  uniqueUsers : Nat
  messagesByUser : JsObj
  messagesByHour : JsObj
  messagesByDayOfWeek : JsObj
  messagesByDate : JsObj
  reactionsByUser : JsObj
  datesCovered : List String
  averageMessageLength : Nat
  topWords : List (String × Nat)
  topMentions : List (String × Nat)
  uniqueLinks : List String
  userTypes : List String
  mostActiveUsers : List (String × Nat)
  mostReactedTo : List (String × Nat)
deriving DecidableEq

/-- The merged `messagesByUser` accumulator (server.jsx:222-225): per-document
entries, in `Object.entries` order, incremented into one object. -/
def aggMessagesByUser (ms : List PerDocMetrics) : JsObj :=
  mergeEntryLists (ms.map (fun m => jsEntries m.messagesByUser))

/-- The merged `messagesByHour` accumulator (server.jsx:228-230). -/
def aggMessagesByHour (ms : List PerDocMetrics) : JsObj :=
  mergeEntryLists (ms.map (fun m => jsEntries m.messagesByHour))

/-- The merged `messagesByDayOfWeek` accumulator (server.jsx:232-234). -/
def aggMessagesByDayOfWeek (ms : List PerDocMetrics) : JsObj :=
  mergeEntryLists (ms.map (fun m => jsEntries m.messagesByDayOfWeek))

/-- The merged `messagesByDate` accumulator (server.jsx:236-238). -/
def aggMessagesByDate (ms : List PerDocMetrics) : JsObj :=
  mergeEntryLists (ms.map (fun m => jsEntries m.messagesByDate))

/-- The merged `reactionsByUser` accumulator (server.jsx:241-243). -/
def aggReactionsByUser (ms : List PerDocMetrics) : JsObj :=
  mergeEntryLists (ms.map (fun m => jsEntries m.reactionsByUser))

/-- The merged `wordFrequency` accumulator (server.jsx:252-254): it is fed
from each document's `topWords` list, which is ALREADY truncated to 50
entries by `analyzeChatLog`. -/
def aggWordFrequency (ms : List PerDocMetrics) : JsObj :=
  mergeEntryLists (ms.map (fun m => m.topWords))

/-- The merged `mentions` accumulator (server.jsx:257-259): fed from each
document's `topMentions` list, which `analyzeChatLog` does NOT truncate. -/
def aggMentions (ms : List PerDocMetrics) : JsObj :=
  mergeEntryLists (ms.map (fun m => m.topMentions))

/-- The `uniqueUsers` set (server.jsx:197, 223): the keys of each document's
`messagesByUser`, added in `Object.entries` order. -/
def aggUniqueUsersSet (ms : List PerDocMetrics) : List String :=
  ms.foldl (fun s m => addAll s ((jsEntries m.messagesByUser).map Prod.fst)) []

/-- The merged `links` set (server.jsx:262). -/
def aggLinks (ms : List PerDocMetrics) : List String :=
  ms.foldl (fun s m => addAll s m.uniqueLinks) []

/-- The merged `userTypes` set (server.jsx:263). -/
def aggUserTypes (ms : List PerDocMetrics) : List String :=
  ms.foldl (fun s m => addAll s m.userTypes) []

/-- The merged `datesCovered` set (server.jsx:246). -/
def aggDatesSet (ms : List PerDocMetrics) : List String :=
  ms.foldl (fun s m => addAll s m.datesCovered) []

/-- The pooled `messageLengths` sample (server.jsx:249): per-document sample
lists concatenated in batch order. -/
def aggMessageLengths (ms : List PerDocMetrics) : List Nat :=
  ms.foldl (fun a m => a ++ m.messageLengthDistribution) []

/-- `aggregateMetrics` (server.jsx:192-302).  The loop at 212-267 analyzes
each document inside `try`/`catch`, skipping a document whose processing
throws; each accumulator field is updated independently of the others, so the
single pass is embedded as one fold per field over the surviving documents in
batch order.  The final object is assembled at 273-301. -/
def aggregateMetrics (docs : List DocResult) : AggregatedMetrics :=
  let ms := okMetrics docs
  { totalMessages := (ms.map (·.totalMessages)).sum
    userMessages := (ms.map (·.userMessages)).sum
    serviceMessages := (ms.map (·.serviceMessages)).sum
    uniqueUsers := (aggUniqueUsersSet ms).length
    messagesByUser := aggMessagesByUser ms
    messagesByHour := aggMessagesByHour ms
    messagesByDayOfWeek := aggMessagesByDayOfWeek ms
    messagesByDate := aggMessagesByDate ms
    reactionsByUser := aggReactionsByUser ms
    datesCovered := sortLex (aggDatesSet ms)
    averageMessageLength := jsRoundAvg (aggMessageLengths ms)
    topWords := (sortDesc (jsEntries (aggWordFrequency ms))).take 50
    topMentions := (sortDesc (jsEntries (aggMentions ms))).take 20
    uniqueLinks := aggLinks ms
    userTypes := aggUserTypes ms
    mostActiveUsers := (sortDesc (jsEntries (aggMessagesByUser ms))).take 10
    mostReactedTo := (sortDesc (jsEntries (aggReactionsByUser ms))).take 10 }

/-- The well-formed zeroed output `aggregateMetrics` returns for a batch with
no surviving data. -/
def emptyAggregatedMetrics : AggregatedMetrics where
  totalMessages := 0
  userMessages := 0
  serviceMessages := 0
  uniqueUsers := 0
  messagesByUser := []
  messagesByHour := []
  messagesByDayOfWeek := []
  messagesByDate := []
  reactionsByUser := []
  datesCovered := []
  averageMessageLength := 0
  topWords := []
  topMentions := []
  uniqueLinks := []
  userTypes := []
  mostActiveUsers := []
  mostReactedTo := []

/-- The property names of the object literal returned by `analyzeChatLog`
(server.jsx:165-189), in source order. -/
def perDocumentFieldNames : List String :=
  ["totalMessages", "userMessages", "serviceMessages", "uniqueUsers",
   "messagesByUser", "messagesByHour", "messagesByDayOfWeek", "messagesByDate",
   "userMessagesByDate", "reactionsByUser", "datesCovered",
   "averageMessageLength", "messageLengthDistribution", "topWords",
   "topMentions", "uniqueLinks", "userTypes", "longestThreads"]

/-- The property names of the object literal returned by `aggregateMetrics`
(server.jsx:273-301), in source order. -/
def aggregatedFieldNames : List String :=
  ["totalMessages", "userMessages", "serviceMessages", "uniqueUsers",
   "messagesByUser", "messagesByHour", "messagesByDayOfWeek", "messagesByDate",
   "reactionsByUser", "datesCovered", "averageMessageLength", "topWords",
   "topMentions", "uniqueLinks", "userTypes", "mostActiveUsers",
   "mostReactedTo"]

/-- Reference aggregation following the spec's words for the refinement claim
on `topWords`: the top-50 ranking computed over the fully merged
word-frequency map, the by-key sum of every successfully processed document's
COMPLETE (untruncated) word counts. -/
def specRecomputedTopWords (docs : List DocResult) : List (String × Nat) :=
  (sortDesc (jsEntries (mergeEntryLists
    ((okDocs docs).map (fun msgs => jsEntries (wordFrequencyOf msgs)))))).take 50

/-- The sender names feeding `userCounts`, in message order: the trimmed
`.from_name` text of each user message that has that element. -/
def senderNamesOf (msgs : List Message) : List String :=
  (userMessagesOf msgs).filterMap nameOf

/-- Rewrite of one message's displayed short time text (the text content of
`.date.details`), leaving every other part of the message unchanged. -/
def retimeElt (f : Message → String) (m : Message) : Message :=
  { m with dateElem := m.dateElem.map (fun de => { de with text := f m }) }

/-- A batch-wide rewrite of the displayed short time text, leaving every
other part of every message unchanged. -/
def retimeDisplay (f : Message → String) (msgs : List Message) : List Message :=
  msgs.map (retimeElt f)

/-- A user message carrying only body text. -/
def mkTextMsg (t : String) : Message where
  isDefault := true
  isService := false
  fromName := none
  dateElem := none
  bodyDetailsText := none
  text := some t
  reactions := 0
  links := []
  replyOnclick := none

/-- Document A of the truncation fixture: one message whose text uses 50
distinct long words twice each and the word "zzzz" once, so "zzzz" ranks 51st
locally and falls off the per-document top-50 list. -/
def c1DocA : List Message :=
  [mkTextMsg (joinWith " "
    (((List.range 50).map (fun i => let w := "wd" ++ pad2 i; [w, w])).flatten
      ++ ["zzzz"]))]

/-- Document B of the truncation fixture: "zzzz" twice. -/
def c1DocB : List Message :=
  [mkTextMsg "zzzz zzzz"]

/-- The truncation fixture batch. -/
def c1Batch : List DocResult :=
  [.ok c1DocA, .ok c1DocB]

/-- First document of the pooled-average fixture: message lengths 2, 4, 6. -/
def c4DocA : List Message :=
  [mkTextMsg "aa", mkTextMsg "aaaa", mkTextMsg "aaaaaa"]

/-- Second document of the pooled-average fixture: message length 8. -/
def c4DocB : List Message :=
  [mkTextMsg "aaaaaaaa"]

/-- The pooled-average fixture batch. -/
def c4Batch : List DocResult :=
  [.ok c4DocA, .ok c4DocB]

/-- A user message whose `.from_name` element holds only whitespace, so the
trimmed sender name is empty. -/
def msgBlankName : Message where
  isDefault := true
  isService := false
  fromName := some "   "
  dateElem := none
  bodyDetailsText := none
  text := none
  reactions := 0
  links := []
  replyOnclick := none

/-- A message whose displayed short time text is "99:00" while its timestamp
attribute carries a valid date: the hour bucket gets the key "99". -/
def msgBadHour : Message where
  isDefault := true
  isService := false
  fromName := none
  dateElem := some { title := some "01.01.2024 09:00:00 UTC-07:00", text := "99:00" }
  bodyDetailsText := none
  text := none
  reactions := 0
  links := []
  replyOnclick := none

/-- A message whose timestamp attribute says hour 07 while the displayed text
says "09:15": the hour bucket follows the displayed text. -/
def msgSkewHour : Message where
  isDefault := true
  isService := false
  fromName := none
  dateElem := some { title := some "02.01.2024 07:00:00 UTC-07:00", text := "09:15" }
  bodyDetailsText := none
  text := none
  reactions := 0
  links := []
  replyOnclick := none

/-- A message whose displayed time "xx:30" fails `parseInt`: the hour bucket
is skipped but the date buckets still count the message. -/
def msgNoHour : Message where
  isDefault := true
  isService := false
  fromName := none
  dateElem := some { title := some "03.01.2024 07:00:00 UTC-07:00", text := "xx:30" }
  bodyDetailsText := none
  text := none
  reactions := 0
  links := []
  replyOnclick := none

/-- A user message whose text ties the non-numeric token "aaaa" (seen first)
with the array-index token "2024". -/
def msgTieWords : Message :=
  mkTextMsg "aaaa 2024"

/-- A user message that carries a link element but no `.text` element. -/
def msgBareLink : Message where
  isDefault := true
  isService := false
  fromName := none
  dateElem := none
  bodyDetailsText := none
  text := none
  reactions := 0
  links := [some "https://example.com"]
  replyOnclick := none

/-- A named user message with reactions and mentions, for witnesses that need
nonempty rankings. -/
def msgNamed : Message where
  isDefault := true
  isService := false
  fromName := some "alice"
  dateElem := none
  bodyDetailsText := none
  text := some "hello @bob hello @bob ping @al"
  reactions := 2
  links := []
  replyOnclick := none

/-! ### Lemmas about the counter-object model -/

theorem jsGet_jsIncr_self (m : JsObj) (k : String) (v : Nat) :
    jsGet (jsIncr m k v) k = jsGet m k + v := by
  induction m with
  | nil => simp [jsIncr, jsGet]
  | cons p rest ih =>
    by_cases hp : p.1 = k
    · simp [jsIncr, jsGet, hp]
    · simp [jsIncr, jsGet, hp, ih]

theorem jsGet_jsIncr_ne (m : JsObj) (k : String) (v : Nat) {q : String}
    (hq : q ≠ k) : jsGet (jsIncr m k v) q = jsGet m q := by
  induction m with
  | nil => simp [jsIncr, jsGet, hq.symm]
  | cons p rest ih =>
    by_cases hp : p.1 = k
    · have hpq : p.1 ≠ q := fun h => hq (h ▸ hp)
      simp [jsIncr, jsGet, hp, hpq, hq.symm]
    · by_cases hq2 : p.1 = q
      · simp [jsIncr, jsGet, hp, hq2, hq]
      · simp [jsIncr, jsGet, hp, hq2, ih]

theorem mem_setAdd {a s : String} {l : List String} :
    a ∈ setAdd l s ↔ a ∈ l ∨ a = s := by
  by_cases h : s ∈ l
  · simp only [setAdd, if_pos h]
    constructor
    · exact Or.inl
    · rintro (h1 | rfl)
      · exact h1
      · exact h
  · simp [setAdd, h]

theorem nodup_setAdd {l : List String} (h : l.Nodup) (s : String) :
    (setAdd l s).Nodup := by
  by_cases hs : s ∈ l
  · simpa [setAdd, hs] using h
  · simp [setAdd, hs, List.nodup_append, h]

theorem jsKeys_jsIncr (m : JsObj) (k : String) (v : Nat) :
    jsKeys (jsIncr m k v) = setAdd (jsKeys m) k := by
  induction m with
  | nil => simp [jsIncr, jsKeys, setAdd]
  | cons p rest ih =>
    by_cases hp : p.1 = k
    · have hk : k ∈ jsKeys (p :: rest) := by
        simp [jsKeys]
        exact Or.inl hp.symm
      have h1 : jsIncr (p :: rest) k v = (p.1, p.2 + v) :: rest := by
        simp [jsIncr, hp]
      rw [h1, setAdd, if_pos hk]
      rfl
    · have h1 : jsIncr (p :: rest) k v = p :: jsIncr rest k v := by
        simp [jsIncr, hp]
      rw [h1]
      show p.1 :: jsKeys (jsIncr rest k v) = setAdd (jsKeys (p :: rest)) k
      rw [ih]
      by_cases hk : k ∈ jsKeys rest
      · have hk2 : k ∈ jsKeys (p :: rest) := by
          simp [jsKeys] at hk ⊢
          exact Or.inr hk
        rw [setAdd, if_pos hk, setAdd, if_pos hk2]
        rfl
      · have hk2 : k ∉ jsKeys (p :: rest) := by
          simp [jsKeys] at hk ⊢
          exact ⟨fun h => hp h.symm, hk⟩
        rw [setAdd, if_neg hk, setAdd, if_neg hk2]
        rfl

theorem sumVals_append (a b : List (String × Nat)) (k : String) :
    sumVals (a ++ b) k = sumVals a k + sumVals b k := by
  induction a with
  | nil => simp [sumVals]
  | cons p rest ih =>
    simp only [List.cons_append, sumVals, List.append_eq, ih, Nat.add_assoc]

theorem sumVals_eq_sum_map (l : List (String × Nat)) (k : String) :
    sumVals l k = (l.map (fun p => if p.1 = k then p.2 else 0)).sum := by
  induction l with
  | nil => rfl
  | cons p rest ih => simp [sumVals, ih]

theorem sumVals_of_perm {a b : List (String × Nat)} (h : a.Perm b) (k : String) :
    sumVals a k = sumVals b k := by
  rw [sumVals_eq_sum_map, sumVals_eq_sum_map]
  exact (h.map _).sum_eq

theorem sumVals_eq_zero {l : List (String × Nat)} {k : String}
    (h : k ∉ l.map Prod.fst) : sumVals l k = 0 := by
  induction l with
  | nil => rfl
  | cons p rest ih =>
    simp only [List.map_cons, List.mem_cons] at h
    push_neg at h
    have h1 : p.1 ≠ k := fun hh => h.1 hh.symm
    simp [sumVals, h1, ih h.2]

theorem sumVals_eq_jsGet {m : JsObj} (hm : (jsKeys m).Nodup) (k : String) :
    sumVals m k = jsGet m k := by
  induction m with
  | nil => rfl
  | cons p rest ih =>
    simp only [jsKeys, List.map_cons, List.nodup_cons] at hm
    by_cases hp : p.1 = k
    · have hz : sumVals rest k = 0 := sumVals_eq_zero (hp ▸ hm.1)
      simp [sumVals, jsGet, hp, hz]
    · simp [sumVals, jsGet, hp, ih hm.2]

theorem foldIncr_cons (acc : JsObj) (p : String × Nat) (l : List (String × Nat)) :
    foldIncr acc (p :: l) = foldIncr (jsIncr acc p.1 p.2) l := rfl

theorem jsGet_foldIncr (acc : JsObj) (l : List (String × Nat)) (q : String) :
    jsGet (foldIncr acc l) q = jsGet acc q + sumVals l q := by
  induction l generalizing acc with
  | nil => simp [foldIncr, sumVals]
  | cons p rest ih =>
    rw [foldIncr_cons, ih]
    by_cases hq : q = p.1
    · subst hq
      rw [jsGet_jsIncr_self]
      simp [sumVals]
      omega
    · rw [jsGet_jsIncr_ne _ _ _ hq]
      have : p.1 ≠ q := fun h => hq h.symm
      simp [sumVals, this]

theorem jsKeys_foldIncr (acc : JsObj) (l : List (String × Nat)) :
    jsKeys (foldIncr acc l) = addAll (jsKeys acc) (l.map Prod.fst) := by
  induction l generalizing acc with
  | nil => rfl
  | cons p rest ih =>
    rw [foldIncr_cons, ih, jsKeys_jsIncr]
    rfl

theorem mem_addAll {q : String} {s l : List String} :
    q ∈ addAll s l ↔ q ∈ s ∨ q ∈ l := by
  induction l generalizing s with
  | nil => simp [addAll]
  | cons x rest ih =>
    rw [show addAll s (x :: rest) = addAll (setAdd s x) rest from rfl, ih, mem_setAdd]
    simp [List.mem_cons]
    tauto

theorem nodup_addAll {s : List String} (h : s.Nodup) (l : List String) :
    (addAll s l).Nodup := by
  induction l generalizing s with
  | nil => exact h
  | cons x rest ih => exact ih (nodup_setAdd h x)

theorem addAll_append (s a b : List String) :
    addAll (addAll s a) b = addAll s (a ++ b) := by
  simp [addAll, List.foldl_append]

theorem addAll_decomp (s l : List String) :
    ∃ t, addAll s l = s ++ t ∧ t.Sublist l := by
  induction l generalizing s with
  | nil => exact ⟨[], by simp [addAll], List.nil_sublist _⟩
  | cons x rest ih =>
    rw [show addAll s (x :: rest) = addAll (setAdd s x) rest from rfl]
    by_cases hx : x ∈ s
    · rw [show setAdd s x = s from by simp [setAdd, hx]]
      obtain ⟨t, ht, hsub⟩ := ih s
      exact ⟨t, ht, hsub.cons x⟩
    · rw [show setAdd s x = s ++ [x] from by simp [setAdd, hx]]
      obtain ⟨t, ht, hsub⟩ := ih (s ++ [x])
      refine ⟨x :: t, ?_, hsub.cons₂ x⟩
      rw [ht, List.append_assoc]
      rfl

theorem dedupFirstSeen_sublist (l : List String) :
    (dedupFirstSeen l).Sublist l := by
  induction l with
  | nil => exact List.Sublist.refl _
  | cons x rest ih =>
    rw [dedupFirstSeen]
    exact ((List.filter_sublist _).trans ih).cons₂ x

theorem filter_not_mem_filter_ne (L : List String) (s : List String) {x : String}
    (hx : x ∈ s) :
    (L.filter (fun y => y ≠ x)).filter (fun y => y ∉ s)
      = L.filter (fun y => y ∉ s) := by
  induction L with
  | nil => rfl
  | cons a rest ih =>
    by_cases hax : a = x
    · subst hax
      have h1 : ¬ (decide (a ≠ a) = true) := by simp
      have h2 : ¬ (decide (a ∉ s) = true) := by simp [hx]
      rw [List.filter_cons, List.filter_cons, if_neg h1, if_neg h2]
      exact ih
    · by_cases has : a ∈ s
      · have h1 : decide (a ≠ x) = true := by simp [hax]
        have h2 : ¬ (decide (a ∉ s) = true) := by simp [has]
        rw [List.filter_cons, List.filter_cons, if_pos h1, if_neg h2,
          List.filter_cons, if_neg h2]
        exact ih
      · have h1 : decide (a ≠ x) = true := by simp [hax]
        have h2 : decide (a ∉ s) = true := by simp [has]
        rw [List.filter_cons, List.filter_cons, if_pos h1, if_pos h2,
          List.filter_cons, if_pos h2, ih]

theorem filter_not_mem_append_singleton (L : List String) (s : List String)
    (x : String) :
    L.filter (fun y => y ∉ s ++ [x])
      = (L.filter (fun y => y ≠ x)).filter (fun y => y ∉ s) := by
  induction L with
  | nil => rfl
  | cons a rest ih =>
    by_cases hax : a = x
    · subst hax
      have h1 : ¬ (decide (a ∉ s ++ [a]) = true) := by simp
      have h2 : ¬ (decide (a ≠ a) = true) := by simp
      rw [List.filter_cons, List.filter_cons, if_neg h1, if_neg h2]
      exact ih
    · by_cases has : a ∈ s
      · have h1 : ¬ (decide (a ∉ s ++ [x]) = true) := by
          simp [List.mem_append, has]
        have h2 : decide (a ≠ x) = true := by simp [hax]
        have h3 : ¬ (decide (a ∉ s) = true) := by simp [has]
        rw [List.filter_cons, List.filter_cons, if_neg h1, if_pos h2,
          List.filter_cons, if_neg h3]
        exact ih
      · have h1 : decide (a ∉ s ++ [x]) = true := by
          simp [List.mem_append, has, hax]
        have h2 : decide (a ≠ x) = true := by simp [hax]
        have h3 : decide (a ∉ s) = true := by simp [has]
        rw [List.filter_cons, List.filter_cons, if_pos h1, if_pos h2,
          List.filter_cons, if_pos h3, ih]

theorem addAll_eq (s l : List String) :
    addAll s l = s ++ (dedupFirstSeen l).filter (fun x => x ∉ s) := by
  induction l generalizing s with
  | nil => simp [addAll, dedupFirstSeen]
  | cons x rest ih =>
    rw [show addAll s (x :: rest) = addAll (setAdd s x) rest from rfl, ih,
      dedupFirstSeen]
    by_cases hx : x ∈ s
    · have hs : setAdd s x = s := by simp [setAdd, hx]
      have h1 : ¬ (decide (x ∉ s) = true) := by simp [hx]
      rw [hs, List.filter_cons, if_neg h1, filter_not_mem_filter_ne _ _ hx]
    · have hs : setAdd s x = s ++ [x] := by simp [setAdd, hx]
      have h1 : decide (x ∉ s) = true := by simp [hx]
      rw [hs, List.filter_cons, if_pos h1, filter_not_mem_append_singleton,
        List.append_assoc, List.singleton_append]

theorem addAll_nil_eq (l : List String) : addAll [] l = dedupFirstSeen l := by
  rw [addAll_eq]
  simp

theorem foldl_addAll {α : Type} (f : α → List String) (msgs : List α)
    (s : List String) :
    msgs.foldl (fun s x => addAll s (f x)) s = addAll s ((msgs.map f).flatten) := by
  induction msgs generalizing s with
  | nil => simp [addAll]
  | cons m rest ih =>
    simp only [List.foldl_cons, ih, List.map_cons, List.flatten_cons, addAll_append]

theorem foldl_append_eq_flatten {α β : Type} (f : α → List β) (ms : List α)
    (init : List β) :
    ms.foldl (fun a m => a ++ f m) init = init ++ (ms.map f).flatten := by
  induction ms generalizing init with
  | nil => simp
  | cons m rest ih => simp [ih]

theorem jsGet_foldl_foldIncr (acc : JsObj) (ls : List (List (String × Nat)))
    (q : String) :
    jsGet (ls.foldl foldIncr acc) q
      = jsGet acc q + (ls.map (fun l => sumVals l q)).sum := by
  induction ls generalizing acc with
  | nil => simp
  | cons a rest ih =>
    simp only [List.foldl_cons, ih, jsGet_foldIncr, List.map_cons, List.sum_cons]
    omega

theorem jsGet_mergeEntryLists (ls : List (List (String × Nat))) (q : String) :
    jsGet (mergeEntryLists ls) q = (ls.map (fun l => sumVals l q)).sum := by
  rw [mergeEntryLists, jsGet_foldl_foldIncr]
  simp [jsGet]

theorem jsGet_countAll {α : Type} (l : List α) (f : α → List (String × Nat))
    (q : String) :
    jsGet (countAll l f) q = (l.map (fun x => sumVals (f x) q)).sum := by
  rw [countAll, jsGet_mergeEntryLists, List.map_map]
  rfl

theorem jsKeys_foldl_foldIncr (acc : JsObj) (ls : List (List (String × Nat))) :
    jsKeys (ls.foldl foldIncr acc)
      = addAll (jsKeys acc) ((ls.map (fun l => l.map Prod.fst)).flatten) := by
  induction ls generalizing acc with
  | nil => simp [addAll]
  | cons a rest ih =>
    simp only [List.foldl_cons, ih, jsKeys_foldIncr, List.map_cons,
      List.flatten_cons, addAll_append]

theorem jsKeys_mergeEntryLists (ls : List (List (String × Nat))) :
    jsKeys (mergeEntryLists ls)
      = addAll [] ((ls.map (fun l => l.map Prod.fst)).flatten) := by
  rw [mergeEntryLists, jsKeys_foldl_foldIncr]
  rfl

theorem keysNodup_mergeEntryLists (ls : List (List (String × Nat))) :
    (jsKeys (mergeEntryLists ls)).Nodup := by
  rw [jsKeys_mergeEntryLists]
  exact nodup_addAll List.nodup_nil _

theorem keysNodup_countAll {α : Type} (l : List α) (f : α → List (String × Nat)) :
    (jsKeys (countAll l f)).Nodup :=
  keysNodup_mergeEntryLists _

theorem mem_jsKeys_countAll {α : Type} {q : String} {l : List α}
    {f : α → List (String × Nat)} :
    q ∈ jsKeys (countAll l f) ↔ ∃ x ∈ l, q ∈ (f x).map Prod.fst := by
  rw [countAll, jsKeys_mergeEntryLists, mem_addAll]
  simp [List.mem_flatten]

theorem jsGet_of_mem {m : JsObj} (hm : (jsKeys m).Nodup) {p : String × Nat}
    (hp : p ∈ m) : jsGet m p.1 = p.2 := by
  induction m with
  | nil => cases hp
  | cons a rest ih =>
    simp only [jsKeys, List.map_cons, List.nodup_cons] at hm
    rcases List.mem_cons.mp hp with rfl | hmem
    · simp [jsGet]
    · have hne : a.1 ≠ p.1 := fun h => hm.1 (h ▸ List.mem_map_of_mem Prod.fst hmem)
      simp [jsGet, hne, ih hm.2 hmem]

theorem mem_jsKeys_iff {m : JsObj} {q : String} :
    q ∈ jsKeys m ↔ ∃ v, (q, v) ∈ m := by
  constructor
  · intro h
    obtain ⟨p, hp, hq⟩ := List.mem_map.mp h
    exact ⟨p.2, by rwa [show (q, p.2) = p from Prod.ext hq.symm rfl]⟩
  · rintro ⟨v, hv⟩
    exact List.mem_map.mpr ⟨(q, v), hv, rfl⟩

/-! ### Lemmas about the stable descending sort and enumeration order -/

theorem insertDesc_perm (x : String × Nat) (l : List (String × Nat)) :
    (insertDesc x l).Perm (x :: l) := by
  induction l with
  | nil => exact List.Perm.refl _
  | cons y rest ih =>
    by_cases h : y.2 ≤ x.2
    · rw [insertDesc, if_pos h]
    · rw [insertDesc, if_neg h]
      exact (ih.cons y).trans (List.Perm.swap x y rest)

theorem sortDesc_perm (l : List (String × Nat)) : (sortDesc l).Perm l := by
  induction l with
  | nil => exact List.Perm.refl _
  | cons x rest ih =>
    rw [sortDesc]
    exact (insertDesc_perm x (sortDesc rest)).trans (ih.cons x)

theorem mem_insertDesc {p x : String × Nat} {l : List (String × Nat)} :
    p ∈ insertDesc x l ↔ p = x ∨ p ∈ l := by
  rw [(insertDesc_perm x l).mem_iff, List.mem_cons]

theorem insertDesc_pairwise {l : List (String × Nat)}
    (h : l.Pairwise (fun p q => q.2 ≤ p.2)) (x : String × Nat) :
    (insertDesc x l).Pairwise (fun p q => q.2 ≤ p.2) := by
  induction l with
  | nil => simp [insertDesc]
  | cons y rest ih =>
    rcases List.pairwise_cons.mp h with ⟨hy, hrest⟩
    by_cases hc : y.2 ≤ x.2
    · rw [insertDesc, if_pos hc]
      refine List.pairwise_cons.mpr ⟨?_, h⟩
      intro z hz
      rcases List.mem_cons.mp hz with rfl | hz2
      · exact hc
      · exact le_trans (hy z hz2) hc
    · rw [insertDesc, if_neg hc]
      refine List.pairwise_cons.mpr ⟨?_, ih hrest⟩
      intro z hz
      rcases mem_insertDesc.mp hz with rfl | hz2
      · omega
      · exact hy z hz2

theorem sortDesc_pairwise (l : List (String × Nat)) :
    (sortDesc l).Pairwise (fun p q => q.2 ≤ p.2) := by
  induction l with
  | nil => simp [sortDesc]
  | cons x rest ih =>
    rw [sortDesc]
    exact insertDesc_pairwise ih x

theorem filter_insertDesc (x : String × Nat) (l : List (String × Nat)) (c : Nat)
    (h : l.Pairwise (fun p q => q.2 ≤ p.2)) :
    (insertDesc x l).filter (fun p => p.2 = c)
      = if x.2 = c then x :: l.filter (fun p => p.2 = c)
        else l.filter (fun p => p.2 = c) := by
  induction l with
  | nil => by_cases hx : x.2 = c <;> simp [insertDesc, hx]
  | cons y rest ih =>
    rcases List.pairwise_cons.mp h with ⟨hy, hrest⟩
    by_cases hc : y.2 ≤ x.2
    · rw [insertDesc, if_pos hc]
      by_cases hx : x.2 = c <;> simp [List.filter_cons, hx]
    · rw [insertDesc, if_neg hc]
      by_cases hyc : y.2 = c
      · have hx : ¬ x.2 = c := by omega
        simp [List.filter_cons, hyc, hx, ih hrest]
      · simp [List.filter_cons, hyc, ih hrest]

theorem filter_sortDesc (l : List (String × Nat)) (c : Nat) :
    (sortDesc l).filter (fun p => p.2 = c) = l.filter (fun p => p.2 = c) := by
  induction l with
  | nil => rfl
  | cons x rest ih =>
    rw [sortDesc, filter_insertDesc _ _ _ (sortDesc_pairwise rest), ih,
      List.filter_cons]
    by_cases hx : x.2 = c <;> simp [hx]

theorem insertIdx_perm (x : String × Nat) (l : List (String × Nat)) :
    (insertIdx x l).Perm (x :: l) := by
  induction l with
  | nil => exact List.Perm.refl _
  | cons y rest ih =>
    by_cases h : keyNum x < keyNum y
    · rw [insertIdx, if_pos h]
    · rw [insertIdx, if_neg h]
      exact (ih.cons y).trans (List.Perm.swap x y rest)

theorem sortIdx_perm (l : List (String × Nat)) : (sortIdx l).Perm l := by
  induction l with
  | nil => exact List.Perm.refl _
  | cons x rest ih =>
    rw [sortIdx]
    exact (insertIdx_perm x (sortIdx rest)).trans (ih.cons x)

theorem jsEntries_perm (m : JsObj) : (jsEntries m).Perm m := by
  unfold jsEntries
  refine ((sortIdx_perm _).append (List.Perm.refl _)).trans ?_
  exact List.filter_append_perm _ m

theorem jsGet_mergeEntries_of_nodup {ms : List JsObj}
    (h : ∀ m ∈ ms, (jsKeys m).Nodup) (q : String) :
    jsGet (mergeEntryLists (ms.map jsEntries)) q
      = (ms.map (fun m => jsGet m q)).sum := by
  rw [jsGet_mergeEntryLists, List.map_map]
  congr 1
  apply List.map_congr_left
  intro m hm
  show sumVals (jsEntries m) q = jsGet m q
  rw [sumVals_of_perm (jsEntries_perm m) q, sumVals_eq_jsGet (h m hm)]

/-! ### Projection equations for the two result records -/

theorem perDoc_messagesByUser (msgs : List Message) :
    (analyzeChatLog msgs).messagesByUser = userCountsOf msgs := rfl

theorem perDoc_messagesByHour (msgs : List Message) :
    (analyzeChatLog msgs).messagesByHour = hourCountsOf msgs := rfl

theorem perDoc_messagesByDayOfWeek (msgs : List Message) :
    (analyzeChatLog msgs).messagesByDayOfWeek = dayOfWeekCountsOf msgs := rfl

theorem perDoc_messagesByDate (msgs : List Message) :
    (analyzeChatLog msgs).messagesByDate = messagesByDateOf msgs := rfl

theorem perDoc_reactionsByUser (msgs : List Message) :
    (analyzeChatLog msgs).reactionsByUser = reactionCountsOf msgs := rfl

theorem perDoc_uniqueUsers (msgs : List Message) :
    (analyzeChatLog msgs).uniqueUsers = (userCountsOf msgs).length := rfl

theorem perDoc_topWords (msgs : List Message) :
    (analyzeChatLog msgs).topWords
      = (sortDesc (jsEntries (wordFrequencyOf msgs))).take 50 := rfl

theorem perDoc_topMentions (msgs : List Message) :
    (analyzeChatLog msgs).topMentions = sortDesc (jsEntries (mentionsOf msgs)) := rfl

theorem perDoc_uniqueLinks (msgs : List Message) :
    (analyzeChatLog msgs).uniqueLinks = linksOf msgs := rfl

theorem perDoc_lengths (msgs : List Message) :
    (analyzeChatLog msgs).messageLengthDistribution = messageLengthsOf msgs := rfl

theorem agg_messagesByUser (docs : List DocResult) :
    (aggregateMetrics docs).messagesByUser = aggMessagesByUser (okMetrics docs) := rfl

theorem agg_messagesByHour (docs : List DocResult) :
    (aggregateMetrics docs).messagesByHour = aggMessagesByHour (okMetrics docs) := rfl

theorem agg_messagesByDayOfWeek (docs : List DocResult) :
    (aggregateMetrics docs).messagesByDayOfWeek
      = aggMessagesByDayOfWeek (okMetrics docs) := rfl

theorem agg_messagesByDate (docs : List DocResult) :
    (aggregateMetrics docs).messagesByDate = aggMessagesByDate (okMetrics docs) := rfl

theorem agg_reactionsByUser (docs : List DocResult) :
    (aggregateMetrics docs).reactionsByUser = aggReactionsByUser (okMetrics docs) := rfl

theorem agg_topWords (docs : List DocResult) :
    (aggregateMetrics docs).topWords
      = (sortDesc (jsEntries (aggWordFrequency (okMetrics docs)))).take 50 := rfl

theorem agg_topMentions (docs : List DocResult) :
    (aggregateMetrics docs).topMentions
      = (sortDesc (jsEntries (aggMentions (okMetrics docs)))).take 20 := rfl

theorem agg_uniqueLinks (docs : List DocResult) :
    (aggregateMetrics docs).uniqueLinks = aggLinks (okMetrics docs) := rfl

theorem agg_mostActiveUsers (docs : List DocResult) :
    (aggregateMetrics docs).mostActiveUsers
      = (sortDesc (jsEntries (aggMessagesByUser (okMetrics docs)))).take 10 := rfl

theorem agg_mostReactedTo (docs : List DocResult) :
    (aggregateMetrics docs).mostReactedTo
      = (sortDesc (jsEntries (aggReactionsByUser (okMetrics docs)))).take 10 := rfl

theorem agg_averageMessageLength (docs : List DocResult) :
    (aggregateMetrics docs).averageMessageLength
      = jsRoundAvg (aggMessageLengths (okMetrics docs)) := rfl

/-! ### Batch plumbing -/

theorem okDocs_append (a b : List DocResult) :
    okDocs (a ++ b) = okDocs a ++ okDocs b := by
  simp [okDocs]

theorem okDocs_error_cons (post : List DocResult) :
    okDocs (Except.error () :: post) = okDocs post := rfl

theorem aggregateMetrics_congr {d1 d2 : List DocResult}
    (h : okDocs d1 = okDocs d2) : aggregateMetrics d1 = aggregateMetrics d2 := by
  unfold aggregateMetrics okMetrics
  rw [h]

/-! ### Key provenance lemmas for specific counters -/

theorem jsKeys_userCountsOf (msgs : List Message) :
    jsKeys (userCountsOf msgs) = addAll [] (senderNamesOf msgs) := by
  rw [userCountsOf, countAll, jsKeys_mergeEntryLists, senderNamesOf]
  congr 1
  generalize userMessagesOf msgs = l
  induction l with
  | nil => rfl
  | cons m rest ih =>
    cases h : nameOf m with
    | none =>
      simp only [List.map_cons, h, List.map_nil, List.flatten_cons,
        List.nil_append, List.filterMap_cons, ih]
    | some name =>
      simp only [List.map_cons, h, List.flatten_cons, List.filterMap_cons, ih,
        List.map_nil, List.cons_append, List.nil_append]

theorem wordFrequency_keys_long {msgs : List Message} {q : String}
    (hq : q ∈ jsKeys (wordFrequencyOf msgs)) : 3 < q.length := by
  rw [wordFrequencyOf] at hq
  obtain ⟨msg, hmsg, hk⟩ := mem_jsKeys_countAll.mp hq
  cases hb : bodyTextOf msg with
  | none =>
    rw [hb] at hk
    cases hk
  | some t =>
    rw [hb] at hk
    simp only [List.map_map] at hk
    obtain ⟨w, hw, hwq⟩ := List.mem_map.mp hk
    have h2 := (List.mem_filter.mp hw).2
    have : (Prod.fst ∘ fun w => (w, 1)) w = w := rfl
    rw [this] at hwq
    subst hwq
    simpa using h2

theorem mem_topWords_long {msgs : List Message} {p : String × Nat}
    (hp : p ∈ (analyzeChatLog msgs).topWords) : 3 < p.1.length := by
  rw [perDoc_topWords] at hp
  have h1 : p ∈ sortDesc (jsEntries (wordFrequencyOf msgs)) :=
    (List.take_sublist _ _).subset hp
  have h2 : p ∈ wordFrequencyOf msgs :=
    (jsEntries_perm _).subset ((sortDesc_perm _).subset h1)
  exact wordFrequency_keys_long (List.mem_map_of_mem Prod.fst h2)

theorem mem_aggTopWords_long {docs : List DocResult} {p : String × Nat}
    (hp : p ∈ (aggregateMetrics docs).topWords) : 3 < p.1.length := by
  rw [agg_topWords] at hp
  have h1 : p ∈ aggWordFrequency (okMetrics docs) :=
    (jsEntries_perm _).subset ((sortDesc_perm _).subset
      ((List.take_sublist _ _).subset hp))
  rw [aggWordFrequency] at h1
  have h2 : p.1 ∈ jsKeys (mergeEntryLists ((okMetrics docs).map (fun m => m.topWords))) :=
    List.mem_map_of_mem Prod.fst h1
  rw [jsKeys_mergeEntryLists, mem_addAll] at h2
  rcases h2 with h2 | h2
  · cases h2
  · rw [List.map_map] at h2
    obtain ⟨l, hl, hql⟩ := List.mem_flatten.mp h2
    obtain ⟨m, hm, hml⟩ := List.mem_map.mp hl
    obtain ⟨msgs, _, hmm⟩ := List.mem_map.mp hm
    obtain ⟨p2, hp2, hp2q⟩ := by
      subst hml
      exact List.mem_map.mp hql
    have : p2 ∈ (analyzeChatLog msgs).topWords := by
      subst hmm
      exact hp2
    have hlong := mem_topWords_long this
    rwa [hp2q] at hlong

/-! ### The displayed time text feeds only the hour bucket -/

theorem retimeElt_nameOf (f : Message → String) (m : Message) :
    nameOf (retimeElt f m) = nameOf m := rfl

theorem retimeElt_reactions (f : Message → String) (m : Message) :
    (retimeElt f m).reactions = m.reactions := rfl

theorem retimeElt_replyOnclick (f : Message → String) (m : Message) :
    (retimeElt f m).replyOnclick = m.replyOnclick := rfl

theorem retimeElt_bodyDetails (f : Message → String) (m : Message) :
    (retimeElt f m).bodyDetailsText = m.bodyDetailsText := rfl

theorem retimeElt_bodyTextOf (f : Message → String) (m : Message) :
    bodyTextOf (retimeElt f m) = bodyTextOf m := rfl

theorem retimeElt_linkTargetsOf (f : Message → String) (m : Message) :
    linkTargetsOf (retimeElt f m) = linkTargetsOf m := rfl

theorem retimeElt_dateKey (f : Message → String) (m : Message) :
    dateKey (retimeElt f m) = dateKey m := by
  unfold dateKey retimeElt
  cases m.dateElem <;> rfl

theorem retimeElt_dowKey (f : Message → String) (m : Message) :
    dowKey (retimeElt f m) = dowKey m := by
  unfold dowKey retimeElt
  cases m.dateElem <;> rfl

theorem userMessagesOf_retime (f : Message → String) (msgs : List Message) :
    userMessagesOf (retimeDisplay f msgs) = (userMessagesOf msgs).map (retimeElt f) := by
  rw [userMessagesOf, userMessagesOf, retimeDisplay, List.filter_map]
  rfl

theorem countAll_map {α β : Type} (e : α → β) (l : List α)
    (sel : β → List (String × Nat)) :
    countAll (l.map e) sel = countAll l (fun x => sel (e x)) := by
  rw [countAll, countAll, List.map_map]
  rfl

theorem userCountsOf_retime (f : Message → String) (msgs : List Message) :
    userCountsOf (retimeDisplay f msgs) = userCountsOf msgs := by
  rw [userCountsOf, userCountsOf, userMessagesOf_retime, countAll_map]
  unfold countAll
  congr 1

theorem reactionCountsOf_retime (f : Message → String) (msgs : List Message) :
    reactionCountsOf (retimeDisplay f msgs) = reactionCountsOf msgs := by
  rw [reactionCountsOf, reactionCountsOf, userMessagesOf_retime, countAll_map]
  unfold countAll
  congr 1

theorem messagesByDateOf_retime (f : Message → String) (msgs : List Message) :
    messagesByDateOf (retimeDisplay f msgs) = messagesByDateOf msgs := by
  rw [messagesByDateOf, messagesByDateOf, retimeDisplay, countAll_map]
  unfold countAll
  congr 1
  apply List.map_congr_left
  intro m hm
  rw [retimeElt_dateKey]

theorem dayOfWeekCountsOf_retime (f : Message → String) (msgs : List Message) :
    dayOfWeekCountsOf (retimeDisplay f msgs) = dayOfWeekCountsOf msgs := by
  rw [dayOfWeekCountsOf, dayOfWeekCountsOf, retimeDisplay, countAll_map]
  unfold countAll
  congr 1
  apply List.map_congr_left
  intro m hm
  rw [retimeElt_dowKey]

theorem userMessagesByDateOf_retime (f : Message → String) (msgs : List Message) :
    userMessagesByDateOf (retimeDisplay f msgs) = userMessagesByDateOf msgs := by
  rw [userMessagesByDateOf, userMessagesByDateOf, userMessagesOf_retime,
    List.foldl_map]
  apply List.foldl_ext
  intro a m hm
  simp only [retimeElt_nameOf, retimeElt_dateKey]

theorem datesCoveredSetOf_retime (f : Message → String) (msgs : List Message) :
    datesCoveredSetOf (retimeDisplay f msgs) = datesCoveredSetOf msgs := by
  rw [datesCoveredSetOf, datesCoveredSetOf, retimeDisplay, List.foldl_map]
  apply List.foldl_ext
  intro a m hm
  simp only [retimeElt_bodyDetails]

theorem messageLengthsOf_retime (f : Message → String) (msgs : List Message) :
    messageLengthsOf (retimeDisplay f msgs) = messageLengthsOf msgs := by
  rw [messageLengthsOf, messageLengthsOf, userMessagesOf_retime, List.foldl_map]
  apply List.foldl_ext
  intro a m hm
  simp only [retimeElt_bodyTextOf]

theorem wordFrequencyOf_retime (f : Message → String) (msgs : List Message) :
    wordFrequencyOf (retimeDisplay f msgs) = wordFrequencyOf msgs := by
  rw [wordFrequencyOf, wordFrequencyOf, userMessagesOf_retime, countAll_map]
  unfold countAll
  congr 1

theorem mentionsOf_retime (f : Message → String) (msgs : List Message) :
    mentionsOf (retimeDisplay f msgs) = mentionsOf msgs := by
  rw [mentionsOf, mentionsOf, userMessagesOf_retime, countAll_map]
  unfold countAll
  congr 1

theorem linksOf_retime (f : Message → String) (msgs : List Message) :
    linksOf (retimeDisplay f msgs) = linksOf msgs := by
  rw [linksOf, linksOf, userMessagesOf_retime, List.foldl_map]
  apply List.foldl_ext
  intro a m hm
  simp only [retimeElt_linkTargetsOf]

theorem userTypesOf_retime (f : Message → String) (msgs : List Message) :
    userTypesOf (retimeDisplay f msgs) = userTypesOf msgs := by
  rw [userTypesOf, userTypesOf, userMessagesOf_retime, List.foldl_map]
  apply List.foldl_ext
  intro a m hm
  simp only [retimeElt_nameOf]

theorem replyChainsOf_retime (f : Message → String) (msgs : List Message) :
    replyChainsOf (retimeDisplay f msgs) = replyChainsOf msgs := by
  rw [replyChainsOf, replyChainsOf, userMessagesOf_retime, countAll_map]
  unfold countAll
  congr 1

theorem jsGet_agg_field (ms : List PerDocMetrics) (g : PerDocMetrics → JsObj)
    (hg : ∀ m ∈ ms, (jsKeys (g m)).Nodup) (k : String) :
    jsGet (mergeEntryLists (ms.map (fun m => jsEntries (g m)))) k
      = (ms.map (fun m => jsGet (g m) k)).sum := by
  have hmm2 : (ms.map g).map jsEntries = ms.map (fun m => jsEntries (g m)) := by
    rw [List.map_map]
    rfl
  rw [← hmm2, jsGet_mergeEntries_of_nodup, List.map_map]
  · rfl
  · intro m hm
    obtain ⟨mm, hmm, rfl⟩ := List.mem_map.mp hm
    exact hg mm hmm

theorem okMetrics_field_nodup (docs : List DocResult) (g : PerDocMetrics → JsObj)
    (hgen : ∀ msgs : List Message, (jsKeys (g (analyzeChatLog msgs))).Nodup) :
    ∀ m ∈ okMetrics docs, (jsKeys (g m)).Nodup := by
  intro m hm
  obtain ⟨msgs2, _, rfl⟩ := List.mem_map.mp hm
  exact hgen msgs2

/-! ### Claim C2 -/

/-- Claim C2 counterexample: the object literal returned by aggregateMetrics
does not carry the per-document fields userMessagesByDate,
messageLengthDistribution and longestThreads, so the two field sets are not
equal (the claim asserts they are, naming exactly these three fields). -/
theorem c2_counterexample :
    "userMessagesByDate" ∈ perDocumentFieldNames ∧
    "messageLengthDistribution" ∈ perDocumentFieldNames ∧
    "longestThreads" ∈ perDocumentFieldNames ∧
    "userMessagesByDate" ∉ aggregatedFieldNames ∧
    "messageLengthDistribution" ∉ aggregatedFieldNames ∧
    "longestThreads" ∉ aggregatedFieldNames := by
  decide

/-- Claim C2 (amended): the aggregated field set equals the per-document
field set MINUS userMessagesByDate, messageLengthDistribution and
longestThreads, PLUS mostActiveUsers and mostReactedTo; and every count-by-key
mapping present in the aggregate (messagesByUser, messagesByHour,
messagesByDayOfWeek, messagesByDate, reactionsByUser) is the key-union sum of
the corresponding mappings of the successfully processed documents. -/
theorem c2_amended :
    (aggregatedFieldNames
        = perDocumentFieldNames.filter
            (fun f => f ∉ ["userMessagesByDate", "messageLengthDistribution",
              "longestThreads"])
          ++ ["mostActiveUsers", "mostReactedTo"]) ∧
    ∀ (docs : List DocResult) (k : String),
      jsGet (aggregateMetrics docs).messagesByUser k
          = ((okMetrics docs).map (fun m => jsGet m.messagesByUser k)).sum ∧
      jsGet (aggregateMetrics docs).messagesByHour k
          = ((okMetrics docs).map (fun m => jsGet m.messagesByHour k)).sum ∧
      jsGet (aggregateMetrics docs).messagesByDayOfWeek k
          = ((okMetrics docs).map (fun m => jsGet m.messagesByDayOfWeek k)).sum ∧
      jsGet (aggregateMetrics docs).messagesByDate k
          = ((okMetrics docs).map (fun m => jsGet m.messagesByDate k)).sum ∧
      jsGet (aggregateMetrics docs).reactionsByUser k
          = ((okMetrics docs).map (fun m => jsGet m.reactionsByUser k)).sum := by
  refine ⟨by decide, ?_⟩
  intro docs k
  refine ⟨?_, ?_, ?_, ?_, ?_⟩
  · rw [agg_messagesByUser, aggMessagesByUser,
      jsGet_agg_field _ _ (okMetrics_field_nodup docs _
        (fun msgs => keysNodup_countAll _ _))]
  · rw [agg_messagesByHour, aggMessagesByHour,
      jsGet_agg_field _ _ (okMetrics_field_nodup docs _
        (fun msgs => keysNodup_countAll _ _))]
  · rw [agg_messagesByDayOfWeek, aggMessagesByDayOfWeek,
      jsGet_agg_field _ _ (okMetrics_field_nodup docs _
        (fun msgs => keysNodup_countAll _ _))]
  · rw [agg_messagesByDate, aggMessagesByDate,
      jsGet_agg_field _ _ (okMetrics_field_nodup docs _
        (fun msgs => keysNodup_countAll _ _))]
  · rw [agg_reactionsByUser, aggReactionsByUser,
      jsGet_agg_field _ _ (okMetrics_field_nodup docs _
        (fun msgs => keysNodup_countAll _ _))]

/-! ### Claim C3 -/

/-- Claim C3: a document whose processing throws is skipped and the batch
result is exactly the one computed without it, so valid documents keep their
full counts; a batch in which no document processes successfully yields the
well-formed zeroed AggregatedMetrics, as do the empty batch and the batch
holding an empty-string document (which parses to zero messages). -/
theorem c3_document_failures_skipped (pre post docs : List DocResult)
    (h : okDocs docs = []) :
    aggregateMetrics (pre ++ Except.error () :: post)
        = aggregateMetrics (pre ++ post) ∧
    aggregateMetrics docs = emptyAggregatedMetrics ∧
    aggregateMetrics [] = emptyAggregatedMetrics ∧
    aggregateMetrics [Except.ok []] = emptyAggregatedMetrics := by
  refine ⟨?_, ?_, ?_, ?_⟩
  · apply aggregateMetrics_congr
    rw [okDocs_append, okDocs_append, okDocs_error_cons]
  · rw [aggregateMetrics_congr (show okDocs docs = okDocs [] from h)]
    rfl
  · rfl
  · rfl

/-- Witness for C3 at a concrete batch: an error document between two valid
documents is skipped, and an all-error batch yields the zeroed result. -/
theorem c3_document_failures_skipped_witness :
    aggregateMetrics ([Except.ok c4DocA] ++ Except.error () :: [Except.ok c4DocB])
        = aggregateMetrics ([Except.ok c4DocA] ++ [Except.ok c4DocB]) ∧
    aggregateMetrics [Except.error ()] = emptyAggregatedMetrics ∧
    aggregateMetrics [] = emptyAggregatedMetrics ∧
    aggregateMetrics [Except.ok []] = emptyAggregatedMetrics :=
  c3_document_failures_skipped [Except.ok c4DocA] [Except.ok c4DocB]
    [Except.error ()] rfl

/-! ### Claim C4 -/

/-- Claim C4: the aggregated averageMessageLength is the rounded mean of the
CONCATENATION of the retained per-document sample lists; at the fixture with
samples [2,4,6] and [8] it is 5, while the per-document averages are 4 and 8,
whose mean would be 6. -/
theorem c4_average_from_pooled_samples :
    (∀ docs : List DocResult,
      (aggregateMetrics docs).averageMessageLength
        = jsRoundAvg (((okMetrics docs).map
            (fun m => m.messageLengthDistribution)).flatten)) ∧
    (aggregateMetrics c4Batch).averageMessageLength = 5 ∧
    (analyzeChatLog c4DocA).messageLengthDistribution = [2, 4, 6] ∧
    (analyzeChatLog c4DocB).messageLengthDistribution = [8] ∧
    (analyzeChatLog c4DocA).averageMessageLength = 4 ∧
    (analyzeChatLog c4DocB).averageMessageLength = 8 ∧
    ((analyzeChatLog c4DocA).averageMessageLength
        + (analyzeChatLog c4DocB).averageMessageLength) / 2 = 6 := by
  refine ⟨?_, by decide, by decide, by decide, by decide, by decide, by decide⟩
  intro docs
  rw [agg_averageMessageLength, aggMessageLengths, foldl_append_eq_flatten,
    List.nil_append]

/-! ### Claim C5 -/

/-- Claim C5 counterexample: a whitespace-only .from_name element is not
treated as absent — its trimmed (empty) name becomes a counting key, so a
document with no non-empty sender name still reports uniqueUsers = 1 and an
empty-string key in messagesByUser. -/
theorem c5_counterexample :
    nameOf msgBlankName = some "" ∧
    (analyzeChatLog [msgBlankName]).uniqueUsers = 1 ∧
    "" ∈ jsKeys (analyzeChatLog [msgBlankName]).messagesByUser := by
  decide

/-- Claim C5 (amended): a sender name is treated as absent exactly when the
.from_name ELEMENT is absent; the trimmed name — possibly empty — is the key,
so uniqueUsers equals the number of distinct trimmed sender names (empty
string included) over the user messages carrying a name element, and the keys
of messagesByUser are exactly those names in first-seen order. -/
theorem c5_amended (msgs : List Message) :
    (analyzeChatLog msgs).uniqueUsers = (addAll [] (senderNamesOf msgs)).length ∧
    jsKeys (analyzeChatLog msgs).messagesByUser = addAll [] (senderNamesOf msgs) := by
  have h := jsKeys_userCountsOf msgs
  constructor
  · rw [perDoc_uniqueUsers,
      show (userCountsOf msgs).length = (jsKeys (userCountsOf msgs)).length from
        (List.length_map _ _).symm,
      h]
  · rw [perDoc_messagesByUser, h]

/-! ### Claim C9 -/

/-- Claim C9 counterexample: the link-collection loop sits inside the body
text guard, so a user message that carries a link element but no .text
element contributes no link at all — although its target does not begin
with an at sign. -/
theorem c9_counterexample :
    (analyzeChatLog [msgBareLink]).uniqueLinks = [] ∧
    msgBareLink.links = [some "https://example.com"] ∧
    msgBareLink.isDefault = true ∧
    strStartsWith "https://example.com" "@" = false := by
  decide

/-- Claim C9 (amended): uniqueLinks IS the first-seen deduplication of the
stream of collected link targets — the targets gathered, in message order,
only from user messages that HAVE a .text element, excluding falsy targets
and targets beginning with an at sign — so it has no duplicates, keeps each
surviving target at its first occurrence, in stream order, and holds exactly
the stream's members; the aggregate is likewise the first-seen deduplication
of the per-document lists concatenated in document order. -/
theorem c9_amended :
    (∀ msgs : List Message,
      (analyzeChatLog msgs).uniqueLinks
          = dedupFirstSeen (((userMessagesOf msgs).map linkTargetsOf).flatten) ∧
      (analyzeChatLog msgs).uniqueLinks.Nodup) ∧
    (∀ docs : List DocResult,
      (aggregateMetrics docs).uniqueLinks
          = dedupFirstSeen (((okMetrics docs).map (fun m => m.uniqueLinks)).flatten) ∧
      (aggregateMetrics docs).uniqueLinks.Nodup) := by
  constructor
  · intro msgs
    rw [perDoc_uniqueLinks, linksOf, foldl_addAll]
    exact ⟨addAll_nil_eq _, nodup_addAll List.nodup_nil _⟩
  · intro docs
    rw [agg_uniqueLinks, aggLinks, foldl_addAll]
    exact ⟨addAll_nil_eq _, nodup_addAll List.nodup_nil _⟩

/-! ### Claim C1 -/

/-- Claim C1 counterexample: at the fixture batch (a word ranked 51st in
document A, also present in document B), the aggregated topWords — merged
from the already-truncated per-document top-50 lists — disagrees with the
spec's recomputation over the fully merged word counts: "zzzz" is absent from
the aggregate although the full merge ranks it first with count 3. -/
theorem c1_counterexample :
    (aggregateMetrics c1Batch).topWords ≠ specRecomputedTopWords c1Batch ∧
    "zzzz" ∉ (aggregateMetrics c1Batch).topWords.map Prod.fst ∧
    (specRecomputedTopWords c1Batch).head? = some ("zzzz", 3) := by
  refine ⟨by decide, by decide, by decide⟩

/-- Claim C1 (amended): the aggregated topWords ranking is the top-50 over
the by-key sum of each document's ALREADY-TRUNCATED top-50 list — a word that
missed a document's local top-50 contributes nothing from that document; at
the fixture, "zzzz" keeps only count 2 (the full merge gives 3) and is
dropped from the aggregated ranking. -/
theorem c1_amended :
    (∀ docs : List DocResult,
      (aggregateMetrics docs).topWords
        = (sortDesc (jsEntries (mergeEntryLists
            ((okMetrics docs).map (fun m => m.topWords))))).take 50 ∧
      ∀ q : String,
        jsGet (mergeEntryLists ((okMetrics docs).map (fun m => m.topWords))) q
          = ((okMetrics docs).map (fun m => sumVals m.topWords q)).sum) ∧
    jsGet (aggWordFrequency (okMetrics c1Batch)) "zzzz" = 2 ∧
    jsGet (mergeEntryLists ((okDocs c1Batch).map
        (fun msgs => jsEntries (wordFrequencyOf msgs)))) "zzzz" = 3 ∧
    "zzzz" ∉ (aggregateMetrics c1Batch).topWords.map Prod.fst := by
  refine ⟨?_, by decide, by decide, by decide⟩
  intro docs
  refine ⟨rfl, ?_⟩
  intro q
  rw [jsGet_mergeEntryLists, List.map_map]
  rfl

/-! ### Claim C6 -/

/-- Claim C6 counterexample: the displayed time "99:00" (with a valid
timestamp attribute) puts the key "99" into messagesByHour — the source has
no 0-23 range check, only a NaN check — while the rest of the message's
metrics are unaffected. -/
theorem c6_counterexample :
    jsKeys (analyzeChatLog [msgBadHour]).messagesByHour = ["99"] ∧
    "99" ∉ (List.range 24).map (fun n => natToString n) ∧
    (analyzeChatLog [msgBadHour]).messagesByDate = [("2024-01-01", 1)] ∧
    (analyzeChatLog [msgBadHour]).messagesByDayOfWeek = [("Monday", 1)] := by
  refine ⟨by decide, by decide, by decide, by decide⟩

theorem hourKey_shape {msg : Message} {k : String} (h : hourKey msg = some k) :
    ∃ i : Int, k = intToString i := by
  cases hde : msg.dateElem with
  | none => simp [hourKey, hde] at h
  | some de =>
    cases ht : truthy de.title with
    | none => simp [hourKey, hde, ht] at h
    | some fd =>
      simp only [hourKey, hde, ht] at h
      by_cases hc : strContains (jsTrim de.text) ':'
      · rw [if_pos hc] at h
        cases hp : jsParseInt ((splitOnStr ":" (jsTrim de.text)).headD "") with
        | none => rw [hp] at h; cases h
        | some i =>
          rw [hp] at h
          injection h with h2
          exact ⟨i, h2.symm⟩
      · rw [if_neg hc] at h
        cases h

/-- Claim C6 (amended): the hour bucket comes from the leading token of the
displayed short time text before the first colon (given a truthy timestamp
attribute), independently of the timestamp value; a token parseInt cannot
parse is skipped for the hour bucket only, and every key of messagesByHour is
the canonical numeral of SOME integer — there is no 0-23 range check, so
out-of-range hours such as 99 become keys.  Rewriting every displayed time
changes no output field other than messagesByHour. -/
theorem c6_amended :
    (∀ (msgs : List Message) (k : String),
        k ∈ jsKeys (analyzeChatLog msgs).messagesByHour →
        ∃ i : Int, k = intToString i) ∧
    (∀ (f : Message → String) (msgs : List Message),
        (analyzeChatLog (retimeDisplay f msgs)).totalMessages
            = (analyzeChatLog msgs).totalMessages ∧
        (analyzeChatLog (retimeDisplay f msgs)).userMessages
            = (analyzeChatLog msgs).userMessages ∧
        (analyzeChatLog (retimeDisplay f msgs)).serviceMessages
            = (analyzeChatLog msgs).serviceMessages ∧
        (analyzeChatLog (retimeDisplay f msgs)).uniqueUsers
            = (analyzeChatLog msgs).uniqueUsers ∧
        (analyzeChatLog (retimeDisplay f msgs)).messagesByUser
            = (analyzeChatLog msgs).messagesByUser ∧
        (analyzeChatLog (retimeDisplay f msgs)).messagesByDayOfWeek
            = (analyzeChatLog msgs).messagesByDayOfWeek ∧
        (analyzeChatLog (retimeDisplay f msgs)).messagesByDate
            = (analyzeChatLog msgs).messagesByDate ∧
        (analyzeChatLog (retimeDisplay f msgs)).userMessagesByDate
            = (analyzeChatLog msgs).userMessagesByDate ∧
        (analyzeChatLog (retimeDisplay f msgs)).reactionsByUser
            = (analyzeChatLog msgs).reactionsByUser ∧
        (analyzeChatLog (retimeDisplay f msgs)).datesCovered
            = (analyzeChatLog msgs).datesCovered ∧
        (analyzeChatLog (retimeDisplay f msgs)).averageMessageLength
            = (analyzeChatLog msgs).averageMessageLength ∧
        (analyzeChatLog (retimeDisplay f msgs)).messageLengthDistribution
            = (analyzeChatLog msgs).messageLengthDistribution ∧
        (analyzeChatLog (retimeDisplay f msgs)).topWords
            = (analyzeChatLog msgs).topWords ∧
        (analyzeChatLog (retimeDisplay f msgs)).topMentions
            = (analyzeChatLog msgs).topMentions ∧
        (analyzeChatLog (retimeDisplay f msgs)).uniqueLinks
            = (analyzeChatLog msgs).uniqueLinks ∧
        (analyzeChatLog (retimeDisplay f msgs)).userTypes
            = (analyzeChatLog msgs).userTypes ∧
        (analyzeChatLog (retimeDisplay f msgs)).longestThreads
            = (analyzeChatLog msgs).longestThreads) ∧
    jsKeys (analyzeChatLog [msgBadHour]).messagesByHour = ["99"] ∧
    jsKeys (analyzeChatLog [msgSkewHour]).messagesByHour = ["9"] ∧
    jsKeys (analyzeChatLog [msgNoHour]).messagesByHour = [] ∧
    (analyzeChatLog [msgNoHour]).messagesByDate = [("2024-01-03", 1)] := by
  refine ⟨?_, ?_, by decide, by decide, by decide, by decide⟩
  · intro msgs k hk
    rw [perDoc_messagesByHour, hourCountsOf] at hk
    obtain ⟨msg, hmsg, hsel⟩ := mem_jsKeys_countAll.mp hk
    cases hh : hourKey msg with
    | none =>
      rw [hh] at hsel
      cases hsel
    | some k2 =>
      rw [hh] at hsel
      simp at hsel
      subst hsel
      exact hourKey_shape hh
  · intro f msgs
    refine ⟨?_, ?_, ?_, ?_, ?_, ?_, ?_, ?_, ?_, ?_, ?_, ?_, ?_, ?_, ?_, ?_, ?_⟩
    · show (retimeDisplay f msgs).length = msgs.length
      rw [retimeDisplay, List.length_map]
    · show (userMessagesOf (retimeDisplay f msgs)).length
          = (userMessagesOf msgs).length
      rw [userMessagesOf_retime, List.length_map]
    · show ((retimeDisplay f msgs).filter (·.isService)).length
          = (msgs.filter (·.isService)).length
      rw [retimeDisplay, List.filter_map, List.length_map]
      congr 1
    · show (userCountsOf (retimeDisplay f msgs)).length = (userCountsOf msgs).length
      rw [userCountsOf_retime]
    · rw [perDoc_messagesByUser, perDoc_messagesByUser, userCountsOf_retime]
    · rw [perDoc_messagesByDayOfWeek, perDoc_messagesByDayOfWeek,
        dayOfWeekCountsOf_retime]
    · rw [perDoc_messagesByDate, perDoc_messagesByDate, messagesByDateOf_retime]
    · show userMessagesByDateOf (retimeDisplay f msgs) = userMessagesByDateOf msgs
      exact userMessagesByDateOf_retime f msgs
    · rw [perDoc_reactionsByUser, perDoc_reactionsByUser, reactionCountsOf_retime]
    · show sortLex (datesCoveredSetOf (retimeDisplay f msgs))
          = sortLex (datesCoveredSetOf msgs)
      rw [datesCoveredSetOf_retime]
    · show jsRoundAvg (messageLengthsOf (retimeDisplay f msgs))
          = jsRoundAvg (messageLengthsOf msgs)
      rw [messageLengthsOf_retime]
    · show messageLengthsOf (retimeDisplay f msgs) = messageLengthsOf msgs
      exact messageLengthsOf_retime f msgs
    · rw [perDoc_topWords, perDoc_topWords, wordFrequencyOf_retime]
    · rw [perDoc_topMentions, perDoc_topMentions, mentionsOf_retime]
    · rw [perDoc_uniqueLinks, perDoc_uniqueLinks, linksOf_retime]
    · show userTypesOf (retimeDisplay f msgs) = userTypesOf msgs
      exact userTypesOf_retime f msgs
    · show (sortDesc (jsEntries (replyChainsOf (retimeDisplay f msgs)))).take 10
          = (sortDesc (jsEntries (replyChainsOf msgs))).take 10
      rw [replyChainsOf_retime]

/-- Witness for C6 at the out-of-range fixture: the key "99" of its hour map
is an integer numeral. -/
theorem c6_amended_witness : ∃ i : Int, "99" = intToString i :=
  c6_amended.1 [msgBadHour] "99" (by decide)

/-! ### Claim C7 -/

/-- Claim C7 counterexample: the tokens "aaaa" (first-encountered) and "2024"
tie at count 1, yet topWords lists "2024" first — JS object property
enumeration puts array-index keys such as "2024" before other keys regardless
of insertion order, and the stable sort preserves that enumeration order, not
first-encounter order. -/
theorem c7_counterexample :
    wordsOf "aaaa 2024" = ["aaaa", "2024"] ∧
    (analyzeChatLog [msgTieWords]).topWords = [("2024", 1), ("aaaa", 1)] := by
  refine ⟨by decide, by decide⟩

/-- Claim C7 (amended): for every document and every batch, topWords has
length at most 50, is non-increasing by count, and contains no token of
length 3 or less; ties preserve the Object.entries enumeration order of the
word-frequency map (array-index tokens in ascending numeric order before the
remaining tokens in first-encounter order), which the stable sort preserves —
the filtered tie classes of topWords are sublists of the enumeration's tie
classes. -/
theorem c7_amended :
    (∀ msgs : List Message,
      (analyzeChatLog msgs).topWords.length ≤ 50 ∧
      (analyzeChatLog msgs).topWords.Pairwise (fun p q => q.2 ≤ p.2) ∧
      (∀ p ∈ (analyzeChatLog msgs).topWords, 3 < p.1.length) ∧
      ∀ c : Nat,
        ((analyzeChatLog msgs).topWords.filter (fun p => p.2 = c)).Sublist
          ((jsEntries (wordFrequencyOf msgs)).filter (fun p => p.2 = c))) ∧
    (∀ docs : List DocResult,
      (aggregateMetrics docs).topWords.length ≤ 50 ∧
      (aggregateMetrics docs).topWords.Pairwise (fun p q => q.2 ≤ p.2) ∧
      (∀ p ∈ (aggregateMetrics docs).topWords, 3 < p.1.length) ∧
      ∀ c : Nat,
        ((aggregateMetrics docs).topWords.filter (fun p => p.2 = c)).Sublist
          ((jsEntries (aggWordFrequency (okMetrics docs))).filter
            (fun p => p.2 = c))) := by
  constructor
  · intro msgs
    refine ⟨?_, ?_, fun p hp => mem_topWords_long hp, ?_⟩
    · rw [perDoc_topWords]
      exact List.length_take_le _ _
    · rw [perDoc_topWords]
      exact (sortDesc_pairwise _).sublist (List.take_sublist _ _)
    · intro c
      rw [perDoc_topWords]
      have h1 := (List.take_sublist 50
          (sortDesc (jsEntries (wordFrequencyOf msgs)))).filter
        (fun p => p.2 = c)
      rwa [filter_sortDesc] at h1
  · intro docs
    refine ⟨?_, ?_, fun p hp => mem_aggTopWords_long hp, ?_⟩
    · rw [agg_topWords]
      exact List.length_take_le _ _
    · rw [agg_topWords]
      exact (sortDesc_pairwise _).sublist (List.take_sublist _ _)
    · intro c
      rw [agg_topWords]
      have h1 := (List.take_sublist 50
          (sortDesc (jsEntries (aggWordFrequency (okMetrics docs))))).filter
        (fun p => p.2 = c)
      rwa [filter_sortDesc] at h1

/-- Witness for C7: a concrete topWords entry is a token longer than 3. -/
theorem c7_amended_witness : 3 < (("aaaa", 1) : String × Nat).1.length :=
  (c7_amended.1 [msgTieWords]).2.2.1 ("aaaa", 1) (by decide)

/-! ### Claim C8 -/

/-- Claim C8: mostActiveUsers and mostReactedTo hold at most 10 name/count
pairs, sorted non-increasingly by count, and every listed count is the sum of
that user's count over all successfully processed documents. -/
theorem c8_top10_rankings (docs : List DocResult) :
    ((aggregateMetrics docs).mostActiveUsers.length ≤ 10 ∧
      (aggregateMetrics docs).mostActiveUsers.Pairwise (fun p q => q.2 ≤ p.2) ∧
      ∀ p ∈ (aggregateMetrics docs).mostActiveUsers,
        p.2 = ((okMetrics docs).map (fun m => jsGet m.messagesByUser p.1)).sum) ∧
    ((aggregateMetrics docs).mostReactedTo.length ≤ 10 ∧
      (aggregateMetrics docs).mostReactedTo.Pairwise (fun p q => q.2 ≤ p.2) ∧
      ∀ p ∈ (aggregateMetrics docs).mostReactedTo,
        p.2 = ((okMetrics docs).map (fun m => jsGet m.reactionsByUser p.1)).sum) := by
  constructor
  · refine ⟨?_, ?_, ?_⟩
    · rw [agg_mostActiveUsers]
      exact List.length_take_le _ _
    · rw [agg_mostActiveUsers]
      exact (sortDesc_pairwise _).sublist (List.take_sublist _ _)
    · intro p hp
      rw [agg_mostActiveUsers] at hp
      have h1 : p ∈ aggMessagesByUser (okMetrics docs) :=
        (jsEntries_perm _).subset ((sortDesc_perm _).subset
          ((List.take_sublist _ _).subset hp))
      have h2 : jsGet (aggMessagesByUser (okMetrics docs)) p.1 = p.2 :=
        jsGet_of_mem (keysNodup_mergeEntryLists _) h1
      have h3 := jsGet_agg_field (okMetrics docs) (fun m => m.messagesByUser)
        (okMetrics_field_nodup docs _ (fun msgs => keysNodup_countAll _ _)) p.1
      rw [← h2]
      exact h3
  · refine ⟨?_, ?_, ?_⟩
    · rw [agg_mostReactedTo]
      exact List.length_take_le _ _
    · rw [agg_mostReactedTo]
      exact (sortDesc_pairwise _).sublist (List.take_sublist _ _)
    · intro p hp
      rw [agg_mostReactedTo] at hp
      have h1 : p ∈ aggReactionsByUser (okMetrics docs) :=
        (jsEntries_perm _).subset ((sortDesc_perm _).subset
          ((List.take_sublist _ _).subset hp))
      have h2 : jsGet (aggReactionsByUser (okMetrics docs)) p.1 = p.2 :=
        jsGet_of_mem (keysNodup_mergeEntryLists _) h1
      have h3 := jsGet_agg_field (okMetrics docs) (fun m => m.reactionsByUser)
        (okMetrics_field_nodup docs _ (fun msgs => keysNodup_countAll _ _)) p.1
      rw [← h2]
      exact h3

/-- Witness for C8 at a one-document batch with a named sender. -/
theorem c8_top10_rankings_witness :
    (("alice", 1) : String × Nat).2
      = ((okMetrics [Except.ok [msgNamed]]).map
          (fun m => jsGet m.messagesByUser (("alice", 1) : String × Nat).1)).sum :=
  (c8_top10_rankings [Except.ok [msgNamed]]).1.2.2 ("alice", 1) (by decide)

/-! ### Claim C10 -/

/-- Claim C10: the aggregate exposes topMentions truncated to at most the 20
highest-count entries of the merged mention-frequency map (whose value at
each mention is the sum of that mention's full per-document counts — the
per-document lists are untruncated, so nothing is lost before the merge),
while the per-document topMentions ranking keeps every distinct mention. -/
theorem c10_topMentions (docs : List DocResult) :
    (aggregateMetrics docs).topMentions.length ≤ 20 ∧
    (aggregateMetrics docs).topMentions.Pairwise (fun p q => q.2 ≤ p.2) ∧
    (∀ p ∈ (aggregateMetrics docs).topMentions,
        p.2 = jsGet (aggMentions (okMetrics docs)) p.1) ∧
    (∀ q : String, jsGet (aggMentions (okMetrics docs)) q
        = ((okDocs docs).map (fun msgs => jsGet (mentionsOf msgs) q)).sum) ∧
    (∀ q ∈ jsKeys (aggMentions (okMetrics docs)),
        q ∉ (aggregateMetrics docs).topMentions.map Prod.fst →
        ∀ p ∈ (aggregateMetrics docs).topMentions,
          jsGet (aggMentions (okMetrics docs)) q ≤ p.2) ∧
    (∀ msgs : List Message,
        (analyzeChatLog msgs).topMentions.length = (mentionsOf msgs).length) := by
  refine ⟨?_, ?_, ?_, ?_, ?_, ?_⟩
  · rw [agg_topMentions]
    exact List.length_take_le _ _
  · rw [agg_topMentions]
    exact (sortDesc_pairwise _).sublist (List.take_sublist _ _)
  · intro p hp
    rw [agg_topMentions] at hp
    have h1 : p ∈ aggMentions (okMetrics docs) :=
      (jsEntries_perm _).subset ((sortDesc_perm _).subset
        ((List.take_sublist _ _).subset hp))
    exact (jsGet_of_mem (keysNodup_mergeEntryLists _) h1).symm
  · intro q
    rw [aggMentions, jsGet_mergeEntryLists, List.map_map, okMetrics, List.map_map]
    congr 1
    apply List.map_congr_left
    intro msgs hm
    show sumVals (analyzeChatLog msgs).topMentions q = jsGet (mentionsOf msgs) q
    rw [perDoc_topMentions, sumVals_of_perm (sortDesc_perm _),
      sumVals_of_perm (jsEntries_perm _)]
    exact sumVals_eq_jsGet (keysNodup_countAll _ _) q
  · intro q hq hqn p hp
    obtain ⟨v, hv⟩ := mem_jsKeys_iff.mp hq
    have hjv : jsGet (aggMentions (okMetrics docs)) q = v :=
      jsGet_of_mem (keysNodup_mergeEntryLists _) hv
    have hvS : (q, v) ∈ sortDesc (jsEntries (aggMentions (okMetrics docs))) := by
      rw [(sortDesc_perm _).mem_iff, (jsEntries_perm _).mem_iff]
      exact hv
    have hnott : (q, v) ∉
        (sortDesc (jsEntries (aggMentions (okMetrics docs)))).take 20 := by
      intro hmem
      apply hqn
      rw [agg_topMentions]
      exact List.mem_map_of_mem Prod.fst hmem
    have hdrop : (q, v) ∈
        (sortDesc (jsEntries (aggMentions (okMetrics docs)))).drop 20 := by
      have h0 := hvS
      rw [← List.take_append_drop 20
        (sortDesc (jsEntries (aggMentions (okMetrics docs))))] at h0
      rcases List.mem_append.mp h0 with h | h
      · exact absurd h hnott
      · exact h
    have hpw := sortDesc_pairwise (jsEntries (aggMentions (okMetrics docs)))
    rw [← List.take_append_drop 20
      (sortDesc (jsEntries (aggMentions (okMetrics docs))))] at hpw
    have hrel := (List.pairwise_append.mp hpw).2.2
    have hle := hrel p (by rw [agg_topMentions] at hp; exact hp) (q, v) hdrop
    rw [hjv]
    exact hle
  · intro msgs
    rw [perDoc_topMentions, (sortDesc_perm _).length_eq, (jsEntries_perm _).length_eq]

/-- Witness for C10 at a one-document batch with two mentions. -/
theorem c10_topMentions_witness :
    (("@bob", 2) : String × Nat).2
      = jsGet (aggMentions (okMetrics [Except.ok [msgNamed]]))
          (("@bob", 2) : String × Nat).1 :=
  (c10_topMentions [Except.ok [msgNamed]]).2.2.1 ("@bob", 2) (by decide)

end TgStats
